import Mathlib

/-!
Verification development for the pyOlog client library
(src/pyOlog/OlogDataTypes.py and src/pyOlog/OlogClient.py).

The Python code is shallowly embedded:
  * JSON-compatible Python values (strings, numbers, None, lists, dicts) are
    the inductive type JVal; Python dicts are association lists with distinct
    keys (CPython dicts cannot hold duplicate keys).
  * raised Python exceptions are modelled by `Except PyErr`.
  * the mutation performed by `dict.pop` is modelled by returning the
    shrunken dictionary alongside the popped value.
  * HTTP traffic is modelled by the state monad OpM: a pending list of
    responses standing for the network, and a trace of issued requests.
Transport details that no property here depends on (headers, basic-auth
handles, TLS adapters, `verify=False`) are not part of the request model.
-/

/-- JSON-compatible Python values as they occur in this layer: strings,
integers, None, lists and string-keyed dicts. -/
inductive JVal : Type where
  | jstr : String → JVal
  | jnum : Int → JVal
  | jnull : JVal
  | jlist : List JVal → JVal
  | jdict : List (String × JVal) → JVal

/-- Python exceptions raised by the embedded code. -/
inductive PyErr : Type where
  | valueError (msg : String)
  | typeError
  | attributeError
  | keyError (k : String)
  | indexError
  | httpStatusError (status : Nat)
  | usageError (msg : String)
  | connectionError
deriving DecidableEq, Repr

/-- Membership in Python 2's `string.printable`: ASCII 32..126 plus the
whitespace characters TAB, LF, VT, FF, CR. -/
def isPyPrintable (c : Char) : Bool :=
  (32 ≤ c.toNat && c.toNat ≤ 126) || (9 ≤ c.toNat && c.toNat ≤ 13)

/-- The characters removed by Python's `str.strip()`. -/
def isPySpace (c : Char) : Bool :=
  c.toNat = 32 || (9 ≤ c.toNat && c.toNat ≤ 13)

/-- `str.strip()` on a list of characters: drop leading and trailing
whitespace. -/
def pyStripChars (l : List Char) : List Char :=
  ((l.dropWhile isPySpace).reverse.dropWhile isPySpace).reverse

/-- `str.strip()`. -/
def pyStrip (s : String) : String :=
  String.mk (pyStripChars s.data)

/-- `''.join(c for c in text if c in string.printable)` followed by
`.strip()`, as performed on the text by the LogEntry constructor. -/
def pyCleanText (s : String) : String :=
  pyStrip (String.mk (s.data.filter isPyPrintable))

/-- Python 2 `cmp` on strings, character-code lexicographic. -/
def pyCmpChars : List Char → List Char → Int
  | [], [] => 0
  | [], _ :: _ => -1
  | _ :: _, [] => 1
  | a :: as, b :: bs =>
      if a.toNat < b.toNat then -1
      else if b.toNat < a.toNat then 1
      else pyCmpChars as bs

/-- Python 2 `cmp` on two strings. -/
def pyCmpStr (a b : String) : Int := pyCmpChars a.data b.data

/-- Python 2 `cmp` on a pair of strings (tuple comparison: first component
decides unless equal). -/
def pyCmpPair (x y : String × String) : Int :=
  if pyCmpStr x.1 y.1 = 0 then pyCmpStr x.2 y.2 else pyCmpStr x.1 y.1

mutual

/-- `repr` of a Python value (used by `str` on lists and dicts). -/
def pyRepr : JVal → String
  | .jstr s => "'" ++ s ++ "'"
  | .jnum n => toString n
  | .jnull => "None"
  | .jlist l => "[" ++ pyReprList l ++ "]"
  | .jdict d => "\x7b" ++ pyReprDict d ++ "\x7d"

def pyReprList : List JVal → String
  | [] => ""
  | [x] => pyRepr x
  | x :: xs => pyRepr x ++ ", " ++ pyReprList xs

def pyReprDict : List (String × JVal) → String
  | [] => ""
  | [kv] => "'" ++ kv.1 ++ "': " ++ pyRepr kv.2
  | kv :: kvs => "'" ++ kv.1 ++ "': " ++ pyRepr kv.2 ++ ", " ++ pyReprDict kvs

end

/-- Python `str()` of a value. Strings map to themselves, `None` to
`"None"`, numbers to their decimal form; containers use their repr. -/
def pyStr : JVal → String
  | .jstr s => s
  | .jnum n => toString n
  | .jnull => "None"
  | .jlist l => pyRepr (.jlist l)
  | .jdict d => pyRepr (.jdict d)

/-- Python truthiness of a value (`if d:`). -/
def pyTruthy : JVal → Bool
  | .jstr s => !s.isEmpty
  | .jnum n => n ≠ 0
  | .jnull => false
  | .jlist l => !l.isEmpty
  | .jdict d => !d.isEmpty

/-- `d.pop(k)` on a Python dict: return the value at `k` and the dict with
that entry removed; raise KeyError when `k` is absent. -/
def dictPop (d : List (String × JVal)) (k : String) :
    Except PyErr (JVal × List (String × JVal)) :=
  match d with
  | [] => .error (.keyError k)
  | kv :: rest =>
      if kv.1 = k then .ok (kv.2, rest)
      else match dictPop rest k with
        | .ok (v, rest2) => .ok (v, kv :: rest2)
        | .error e => .error e

/-- `d.get(k)` on a Python dict: the value at `k`, or None. -/
def dictGet (d : List (String × JVal)) (k : String) : JVal :=
  match d with
  | [] => .jnull
  | kv :: rest => if kv.1 = k then kv.2 else dictGet rest k

/-- `v.pop(k)` on an arbitrary value: dicts pop an entry, anything else
has no `pop` attribute. -/
def jvalPop (v : JVal) (k : String) : Except PyErr (JVal × JVal) :=
  match v with
  | .jdict d => (dictPop d k).map (fun p => (p.1, .jdict p.2))
  | _ => .error .attributeError

/-- Iterating a Python value (`for x in v`): lists yield their elements,
dicts their keys, strings their characters; numbers and None are not
iterable. -/
def pyIter : JVal → Except PyErr (List JVal)
  | .jlist l => .ok l
  | .jdict d => .ok (d.map (fun kv => .jstr kv.1))
  | .jstr s => .ok (s.data.map (fun c => .jstr (String.mk [c])))
  | _ => .error .typeError

/-- `v[0]` (`resp.json()[0]` in `OlogClient.log`): indexing a list; an
empty list raises IndexError, a dict raises KeyError (integer key absent:
response dicts here are string-keyed), other values are not subscriptable
this way. -/
def jIndexZero : JVal → Except PyErr JVal
  | .jlist [] => .error .indexError
  | .jlist (x :: _) => .ok x
  | .jstr s => match s.data with
      | [] => .error .indexError
      | c :: _ => .ok (.jstr (String.mk [c]))
  | .jdict _ => .error (.keyError "0")
  | _ => .error .typeError

/-- Modelled from the spec: the configuration module (`conf`, imported by
OlogDataTypes.py but not present under src/) supplies process-wide defaults
for `username`, `logbooks` and `tags`; `_conf.getValue(key, value)` returns
`value` unless it is None, in which case it returns the configured default
for `key` (which may itself be None when unconfigured). Unset defaults are
modelled as `jnull`. -/
structure Conf : Type where
  username : JVal
  logbooks : JVal
  tags : JVal

/-- `_conf.getValue(key, value)` with `stored` the configured default for
`key` (Modelled from the spec, see `Conf`). -/
def Conf.getValue (stored : JVal) (value : JVal) : JVal :=
  match value with
  | .jnull => stored
  | v => v

/-- A configuration with nothing configured. -/
def Conf.empty : Conf := ⟨.jnull, .jnull, .jnull⟩

/-- Logbook (OlogDataTypes.py): a stripped name and a stripped owner. -/
structure Logbook : Type where
  Name : String
  Owner : String
deriving DecidableEq, Repr

/-- `Logbook.__init__`: `str(name).strip()` and `str(owner).strip()`; the
owner argument defaults to None, in which case `str(None)` stores the
string "None". Construction never raises. -/
def Logbook.make (name : JVal) (owner : JVal) : Logbook :=
  ⟨pyStrip (pyStr name), pyStrip (pyStr owner)⟩

/-- `Logbook.__cmp__`: 1 against None, otherwise Python 2 `cmp` of the
(name, owner) tuples. -/
def Logbook.cmpPy (self : Logbook) (other : Option Logbook) : Int :=
  match other with
  | none => 1
  | some b => pyCmpPair (self.Name, self.Owner) (b.Name, b.Owner)

/-- Tag (OlogDataTypes.py): a stripped name and a stripped state. -/
structure Tag : Type where
  Name : String
  State : String
deriving DecidableEq, Repr

/-- `Tag.__init__`: `str(name).strip()` and `str(state).strip()`; the state
argument defaults to "Active". -/
def Tag.make (name : JVal) (state : JVal) : Tag :=
  ⟨pyStrip (pyStr name), pyStrip (pyStr state)⟩

/-- `Tag.__cmp__`: 1 against None, otherwise Python 2 `cmp` of the
(name, state) tuples. -/
def Tag.cmpPy (self : Tag) (other : Option Tag) : Int :=
  match other with
  | none => 1
  | some b => pyCmpPair (self.Name, self.State) (b.Name, b.State)

/-- A Python file object, modelled by its `name` attribute (the only part
this layer reads; contents are opaque to every property below). -/
structure PyFile : Type where
  name : String
deriving DecidableEq, Repr

/-- Attachment (OlogDataTypes.py): a file object and an optional explicit
filename. -/
structure Attachment : Type where
  file : PyFile
  filename : Option String
deriving DecidableEq, Repr

/-- `os.path.basename` (POSIX): everything after the last slash. -/
def osPathBasename (p : String) : String :=
  String.mk ((p.data.reverse.takeWhile (fun c => c ≠ '/')).reverse)

/-- A representative subset of Python's `mimetypes.types_map` (the stdlib
table behind `mimetypes.guess_type`), keyed by lowercased extension. -/
def mimetypesTypesMap : List (String × String) :=
  [ (".jpg", "image/jpeg"), (".jpeg", "image/jpeg"), (".jpe", "image/jpeg"),
    (".png", "image/png"), (".gif", "image/gif"), (".bmp", "image/x-ms-bmp"),
    (".tif", "image/tiff"), (".tiff", "image/tiff"),
    (".txt", "text/plain"), (".csv", "text/csv"),
    (".htm", "text/html"), (".html", "text/html"),
    (".xml", "text/xml"), (".json", "application/json"),
    (".pdf", "application/pdf"), (".ps", "application/postscript"),
    (".zip", "application/zip"), (".gz", "application/gzip"),
    (".tar", "application/x-tar"), (".py", "text/x-python"),
    (".mp3", "audio/mpeg"), (".mp4", "video/mp4"), (".avi", "video/x-msvideo"),
    (".doc", "application/msword"), (".bin", "application/octet-stream") ]

/-- `posixpath.splitext` extension: the part of the basename from its last
dot on, except that dots leading the basename do not start an extension
(".bashrc" has none). -/
def splitextExt (basename : String) : String :=
  let l := basename.data
  let stem := l.takeWhile (fun c => c = '.')
  let rest := l.drop stem.length
  let tail := rest.reverse.takeWhile (fun c => c ≠ '.')
  if tail.length = rest.length then ""
  else String.mk ('.' :: tail.reverse)

/-- `mimetypes.guess_type(name)[0]`: look the lowercased extension up in
the type table; unknown extensions give None. -/
def mimetypesGuessType (name : String) : Option String :=
  let ext := String.mk ((splitextExt name).data.map Char.toLower)
  (mimetypesTypesMap.lookup ext)

/-- `Attachment.getFilePost`: the basename of the explicit filename (or of
the file object's name), the file itself, and the guessed MIME type with
application/octet-stream as fallback. -/
def Attachment.getFilePost (a : Attachment) : String × PyFile × String :=
  let basename :=
    match a.filename with
    | none => osPathBasename a.file.name
    | some fn => osPathBasename fn
  let mtype :=
    match mimetypesGuessType basename with
    | none => "application/octet-stream"
    | some m => m
  (basename, a.file, mtype)

/-- Property (OlogDataTypes.py): a stripped name and the attributes value
exactly as supplied (the constructor stores it unchecked; None by
default, a dict in every intended use). -/
structure Property : Type where
  Name : String
  Attributes : JVal

/-- `Property.__init__`: `str(name).strip()`; attributes stored as-is. -/
def Property.make (name : JVal) (attributes : JVal) : Property :=
  ⟨pyStrip (pyStr name), attributes⟩

/-- `set(v)` as used by `Property.__cmp__`: the key set of a dict, the
character set of a string; None and numbers are not iterable. Sets of
list elements would need hashable-element sets over arbitrary values and
never arise on this code path (attributes are dicts or None); lists are
mapped to TypeError here. -/
def pySetKeys : JVal → Except PyErr (Finset String)
  | .jdict d => .ok (d.map Prod.fst).toFinset
  | .jstr s => .ok (s.data.map (fun c => String.mk [c])).toFinset
  | _ => .error .typeError

/-- Python 2 three-way comparison of two sets: 0 when equal, subset -1,
superset 1; incomparable sets fall back to an identity/type-based
ordering in CPython 2, modelled as 1. -/
def pyCmpSets (a b : Finset String) : Int :=
  if a = b then 0 else if a ⊂ b then -1 else 1

/-- `Property.__cmp__`: 1 against None; otherwise both attribute sets are
built (raising TypeError for non-iterable attributes) and the
(name, key-set) tuples are compared. -/
def Property.cmpPy (self : Property) (other : Option Property) :
    Except PyErr Int :=
  match other with
  | none => .ok 1
  | some b => do
      let s1 ← pySetKeys self.Attributes
      let s2 ← pySetKeys b.Attributes
      if self.Name = b.Name then .ok (pyCmpSets s1 s2)
      else .ok (pyCmpStr self.Name b.Name)

/-- LogEntry (OlogDataTypes.py). The element types of logbooks, tags and
properties are Options because the decoders can deposit None into those
lists (`dictToLogbook` and friends return None on falsy input). -/
structure LogEntry : Type where
  Text : String
  Owner : JVal
  logbooks : List (Option Logbook)
  tags : List (Option Tag)
  attachments : List Attachment
  properties : List (Option Property)
  eid : JVal
  createTime : JVal
  modifyTime : JVal

/-- `LogEntry.__init__`. The text is filtered to `string.printable` and
stripped; the owner falls back to the configured username and must not end
up None; omitted logbooks fall back to the configured comma-separated
logbook list and must yield something; omitted tags fall back to the
configured tag list or the empty list; attachments and properties default
to empty lists. Non-string text is modelled as TypeError (iterating a
non-string raises for every value except the join-of-printable-substrings
corner, which never occurs in this client). The stored `_id`,
`_create_time`, `_modify_time` are the arguments unchecked. -/
def mkLogEntry (conf : Conf) (text : JVal) (owner : JVal)
    (logbooks : Option (List (Option Logbook)))
    (tags : Option (List (Option Tag)))
    (attachments : Option (List Attachment))
    (properties : Option (List (Option Property)))
    (id createTime modifyTime : JVal) : Except PyErr LogEntry :=
  match text with
  | .jstr s =>
      match Conf.getValue conf.username owner with
      | .jnull => .error (.valueError "You must specify an owner")
      | ow =>
          match ((match logbooks with
            | some l => Except.ok l
            | none =>
                match conf.logbooks with
                | .jnull => .error (.valueError "You must specify a logbook")
                | .jstr s2 => .ok ((s2.splitOn ",").map
                    (fun n => some (Logbook.make (.jstr n) .jnull)))
                | _ => .error PyErr.attributeError) :
              Except PyErr (List (Option Logbook))) with
          | .error e => .error e
          | .ok lbs =>
              match ((match tags with
                | some l => Except.ok l
                | none =>
                    match conf.tags with
                    | .jnull => .ok ([] : List (Option Tag))
                    | .jstr s2 => .ok ((s2.splitOn ",").map
                        (fun n => some (Tag.make (.jstr n) (.jstr "Active"))))
                    | _ => .error PyErr.attributeError) :
                  Except PyErr (List (Option Tag))) with
              | .error e => .error e
              | .ok tgs =>
                  .ok ⟨pyCleanText s, ow, lbs, tgs,
                    (match attachments with | some l => l | none => []),
                    (match properties with | some l => l | none => []),
                    id, createTime, modifyTime⟩
  | _ => .error PyErr.typeError

/-- `LogEntry.__cmp__`: 1 against None; with a truthy id the code reads
`arg[0].__id`, which name-mangles to `_LogEntry__id` — an attribute never
assigned anywhere in the class (the stored field is `_id`) — so the lookup
raises AttributeError; with a falsy id it raises ValueError. -/
def LogEntry.cmpPy (self : LogEntry) (other : Option LogEntry) :
    Except PyErr Int :=
  match other with
  | none => .ok 1
  | some _ =>
      if pyTruthy self.eid then .error .attributeError
      else .error (.valueError "Invalid LogEntry: id cannot be None")

/-- `PropertyEncoder.default`: iterate the attributes building a dict of
stringified values looked up by key, under the keys "name" and
"attributes". Non-iterable attributes (None, numbers) raise TypeError;
strings and lists iterate but then fail the `.get` attribute lookup. -/
def PropertyEncoder.default (p : Property) : Except PyErr JVal :=
  match p.Attributes with
  | .jdict entries =>
      .ok (.jdict [("name", .jstr p.Name),
        ("attributes", .jdict (entries.map
          (fun kv => (kv.1, .jstr (pyStr (dictGet entries kv.1))))))])
  | .jnull => .error .typeError
  | .jnum _ => .error .typeError
  | .jstr _ => .error .attributeError
  | .jlist _ => .error .attributeError

/-- `LogbookEncoder.default`: a dict with keys "name" and "owner". -/
def LogbookEncoder.default (lb : Logbook) : JVal :=
  .jdict [("name", .jstr lb.Name), ("owner", .jstr lb.Owner)]

/-- `TagEncoder.default`: a dict with keys "state" and "name" (in that
order). -/
def TagEncoder.default (t : Tag) : JVal :=
  .jdict [("state", .jstr t.State), ("name", .jstr t.Name)]

/-- `LogEntryEncoder.default`: a single-element list holding a dict with
description, owner, the fixed level "Info", and the encoded logbook, tag
and property lists. A None deposited in one of those lists fails the
isinstance test and falls through to `json.JSONEncoder.default`, which
raises TypeError. -/
def LogEntryEncoder.default (e : LogEntry) : Except PyErr JVal := do
  let lbs ← e.logbooks.mapM (fun x => match x with
    | some lb => .ok (LogbookEncoder.default lb)
    | none => .error PyErr.typeError)
  let tgs ← e.tags.mapM (fun x => match x with
    | some t => .ok (TagEncoder.default t)
    | none => .error PyErr.typeError)
  let props ← e.properties.mapM (fun x => match x with
    | some p => PropertyEncoder.default p
    | none => .error PyErr.typeError)
  .ok (.jlist [.jdict [("description", .jstr e.Text),
    ("owner", e.Owner),
    ("level", .jstr "Info"),
    ("logbooks", .jlist lbs),
    ("tags", .jlist tgs),
    ("properties", .jlist props)]])

/-- `PropertyDecoder.dictToProperty`: falsy input yields None (and the
implicit return also yields None); otherwise pop "name" then "attributes"
and build the Property. The mutated dict is returned alongside. -/
def dictToProperty (v : JVal) : Except PyErr (Option Property × JVal) :=
  if pyTruthy v then
    match v with
    | .jdict d => do
        let (n, d1) ← dictPop d "name"
        let (a, d2) ← dictPop d1 "attributes"
        .ok (some (Property.make n a), .jdict d2)
    | _ => .error .attributeError
  else .ok (none, v)

/-- `LogbookDecoder.dictToLogbook`: falsy input yields None; otherwise pop
"name" then "owner" and build the Logbook. The mutated dict is returned
alongside. -/
def dictToLogbook (v : JVal) : Except PyErr (Option Logbook × JVal) :=
  if pyTruthy v then
    match v with
    | .jdict d => do
        let (n, d1) ← dictPop d "name"
        let (o, d2) ← dictPop d1 "owner"
        .ok (some (Logbook.make n o), .jdict d2)
    | _ => .error .attributeError
  else .ok (none, v)

/-- `TagDecoder.dictToTag`: falsy input yields None; otherwise pop "name"
then "state" and build the Tag. The mutated dict is returned alongside. -/
def dictToTag (v : JVal) : Except PyErr (Option Tag × JVal) :=
  if pyTruthy v then
    match v with
    | .jdict d => do
        let (n, d1) ← dictPop d "name"
        let (s, d2) ← dictPop d1 "state"
        .ok (some (Tag.make n s), .jdict d2)
    | _ => .error .attributeError
  else .ok (none, v)

/-- `LogEntryDecoder.dictToLogEntry`: falsy input yields None; otherwise
pop description, owner, logbooks (decoding each element), tags (likewise),
properties (likewise), id, createdDate, modifiedDate — in exactly the
argument-evaluation order of the constructor call — then invoke the
LogEntry constructor. The mutated dict is returned alongside. -/
def dictToLogEntry (conf : Conf) (v : JVal) :
    Except PyErr (Option LogEntry × JVal) :=
  if pyTruthy v then
    match v with
    | .jdict d => do
        let (desc, d) ← dictPop d "description"
        let (ow, d) ← dictPop d "owner"
        let (lbsV, d) ← dictPop d "logbooks"
        let lbsI ← pyIter lbsV
        let lbs ← lbsI.mapM (fun x => (dictToLogbook x).map Prod.fst)
        let (tgsV, d) ← dictPop d "tags"
        let tgsI ← pyIter tgsV
        let tgs ← tgsI.mapM (fun x => (dictToTag x).map Prod.fst)
        let (prsV, d) ← dictPop d "properties"
        let prsI ← pyIter prsV
        let prs ← prsI.mapM (fun x => (dictToProperty x).map Prod.fst)
        let (idv, d) ← dictPop d "id"
        let (ctv, d) ← dictPop d "createdDate"
        let (mtv, d) ← dictPop d "modifiedDate"
        let e ← mkLogEntry conf desc ow (some lbs) (some tgs) none (some prs)
          idv ctv mtv
        .ok (some e, .jdict d)
    | _ => .error .attributeError
  else .ok (none, v)

/-- HTTP method of a request. -/
inductive Method : Type where
  | mGET
  | mPUT
  | mPOST
  | mDELETE
deriving DecidableEq, Repr

/-- An HTTP request as issued by the client: method, full URL, optional
JSON body (pre-serialization), optional multipart file post from
`Attachment.getFilePost`. Headers, basic auth and `verify=False` are
constants in the source and carry no information for the properties
below. -/
structure Req : Type where
  method : Method
  url : String
  body : Option JVal
  filePost : Option (String × PyFile × String)

/-- An HTTP response: status code and parsed JSON body. -/
structure Resp : Type where
  status : Nat
  body : JVal

/-- The network/trace state threaded through an operation: responses still
pending (the environment) and the requests issued so far. -/
structure HttpState : Type where
  pending : List Resp
  issued : List Req

/-- The effect of one client operation: it consumes responses, records
requests and can raise. -/
def OpM (α : Type) : Type := HttpState → HttpState × Except PyErr α

def OpM.pure (a : α) : OpM α := fun s => (s, .ok a)

def OpM.bind (m : OpM α) (f : α → OpM β) : OpM β := fun s =>
  match m s with
  | (s1, .ok a) => f a s1
  | (s1, .error e) => (s1, .error e)

instance : Monad OpM where
  pure := OpM.pure
  bind := OpM.bind

def OpM.throw (e : PyErr) : OpM α := fun s => (s, .error e)

def OpM.ofExcept : Except PyErr α → OpM α
  | .ok a => OpM.pure a
  | .error e => OpM.throw e

/-- Issue one HTTP request: record it and consume the next pending
response; an exhausted environment is a transport-level failure. -/
def httpCall (r : Req) : OpM Resp := fun s =>
  match s.pending with
  | [] => (⟨[], s.issued ++ [r]⟩, .error .connectionError)
  | resp :: rest => (⟨rest, s.issued ++ [r]⟩, .ok resp)

/-- `requests.Response.raise_for_status`: raises for client-error (4xx)
and server-error (5xx) statuses and for nothing else. -/
def raiseForStatus (r : Resp) : OpM Unit :=
  if 400 ≤ r.status ∧ r.status < 600 then OpM.throw (.httpStatusError r.status)
  else OpM.pure ()

/-- Run one operation against a list of pending responses, yielding the
requests it issued and its outcome. -/
def runOp (m : OpM α) (resps : List Resp) : List Req × Except PyErr α :=
  ((m ⟨resps, []⟩).1.issued, (m ⟨resps, []⟩).2)

def logsResource : String := "/resources/logs"
def propertiesResource : String := "/resources/properties"
def tagsResource : String := "/resources/tags"
def logbooksResource : String := "/resources/logbooks"
def attachmentResource : String := "/resources/attachments"

/-- The attachment loop at the end of `OlogClient.log`: one POST per
attachment to the attachment sub-resource keyed by the created entry's id,
each checked with raise_for_status. -/
def uploadAttachments (burl : String) (idStr : String) :
    List Attachment → OpM Unit
  | [] => OpM.pure ()
  | a :: rest => do
      let resp ← httpCall ⟨.mPOST, burl ++ attachmentResource ++ "/" ++ idStr,
        none, some a.getFilePost⟩
      raiseForStatus resp
      uploadAttachments burl idStr rest

/-- `OlogClient.log`: encode the entry, POST it to the logs resource,
check the status, decode `resp.json()[0]` and take its id (None decodes
have no `getId` attribute), then upload each attachment sequentially. -/
def OlogClient.log (conf : Conf) (burl : String) (entry : LogEntry) :
    OpM Unit := do
  let body ← OpM.ofExcept (LogEntryEncoder.default entry)
  let resp ← httpCall ⟨.mPOST, burl ++ logsResource, some body, none⟩
  raiseForStatus resp
  let first ← OpM.ofExcept (jIndexZero resp.body)
  let dec ← OpM.ofExcept (dictToLogEntry conf first)
  match dec.1 with
  | none => OpM.throw .attributeError
  | some ent => uploadAttachments burl (pyStr ent.eid) entry.attachments

/-- `OlogClient.createLogbook`: PUT the encoded logbook to the logbooks
resource keyed by its name. -/
def OlogClient.createLogbook (burl : String) (lb : Logbook) : OpM Unit := do
  let resp ← httpCall ⟨.mPUT, burl ++ logbooksResource ++ "/" ++ lb.Name,
    some (LogbookEncoder.default lb), none⟩
  raiseForStatus resp

/-- `OlogClient.createTag`: PUT the encoded tag to the tags resource keyed
by its name. -/
def OlogClient.createTag (burl : String) (t : Tag) : OpM Unit := do
  let resp ← httpCall ⟨.mPUT, burl ++ tagsResource ++ "/" ++ t.Name,
    some (TagEncoder.default t), none⟩
  raiseForStatus resp

/-- `OlogClient.createProperty`: encode the property (the source encodes
it twice; both encodings are equal and any encoding error precedes the
request), then PUT it keyed by its name. -/
def OlogClient.createProperty (burl : String) (p : Property) : OpM Unit := do
  let body ← OpM.ofExcept (PropertyEncoder.default p)
  let resp ← httpCall ⟨.mPUT, burl ++ propertiesResource ++ "/" ++ p.Name,
    some body, none⟩
  raiseForStatus resp

/-- `urlencode(OrderedDict(kwds))` with order preserved. Percent-escaping
of reserved characters inside keys and values is elided; no property below
inspects the query string beyond its presence. -/
def urlencodePairs (kwds : List (String × String)) : String :=
  String.intercalate "&" (kwds.map (fun kv => kv.1 ++ "=" ++ kv.2))

/-- `OlogClient.find`: one GET with the url-encoded criteria, status
check, then decode every element of the JSON body (appending the decoder's
result, None included, as the source's list append does). -/
def OlogClient.find (conf : Conf) (burl : String)
    (kwds : List (String × String)) : OpM (List (Option LogEntry)) := do
  let resp ← httpCall ⟨.mGET,
    burl ++ logsResource ++ "?" ++ urlencodePairs kwds, none, none⟩
  raiseForStatus resp
  let items ← OpM.ofExcept (pyIter resp.body)
  let logs ← OpM.ofExcept
    (items.mapM (fun j => (dictToLogEntry conf j).map Prod.fst))
  OpM.pure logs

/-- The body of the attachment loop in `OlogClient.listAttachments`: pop
each entry's fileName (string concatenation into the URL needs it to be a
string), GET the attachment content — the source never calls
raise_for_status on this response — and materialize an Attachment around
a temporary file renamed to the server-reported fileName. The bytes
written to the temporary file are opaque to every property below. -/
def fetchAttachments (burl : String) (idStr : String) :
    List JVal → OpM (List Attachment)
  | [] => OpM.pure []
  | j :: rest => do
      let pr ← OpM.ofExcept (jvalPop j "fileName")
      let fn ← OpM.ofExcept (match pr.1 with
        | .jstr s => .ok s
        | _ => .error PyErr.typeError)
      let _f ← httpCall ⟨.mGET,
        burl ++ attachmentResource ++ "/" ++ idStr ++ "/" ++ fn, none, none⟩
      let rest2 ← fetchAttachments burl idStr rest
      OpM.pure (⟨⟨fn⟩, none⟩ :: rest2)

/-- `OlogClient.listAttachments`: GET the attachment envelope for the
entry, check the status, pop the "attachment" key and fetch each listed
attachment's content with an unchecked GET. -/
def OlogClient.listAttachments (burl : String) (logEntryId : JVal) :
    OpM (List Attachment) := do
  let resp ← httpCall ⟨.mGET,
    burl ++ attachmentResource ++ "/" ++ pyStr logEntryId, none, none⟩
  raiseForStatus resp
  let pr ← OpM.ofExcept (jvalPop resp.body "attachment")
  let items ← OpM.ofExcept (pyIter pr.1)
  fetchAttachments burl (pyStr logEntryId) items

/-- `OlogClient.listTags`: GET the tags resource, check the status, pop
the "tag" envelope key and decode each element. -/
def OlogClient.listTags (burl : String) : OpM (List (Option Tag)) := do
  let resp ← httpCall ⟨.mGET, burl ++ tagsResource, none, none⟩
  raiseForStatus resp
  let pr ← OpM.ofExcept (jvalPop resp.body "tag")
  let items ← OpM.ofExcept (pyIter pr.1)
  let tags ← OpM.ofExcept
    (items.mapM (fun j => (dictToTag j).map Prod.fst))
  OpM.pure tags

/-- `OlogClient.listLogbooks`: GET the logbooks resource, check the
status, pop the "logbook" envelope key and decode each element. -/
def OlogClient.listLogbooks (burl : String) : OpM (List (Option Logbook)) := do
  let resp ← httpCall ⟨.mGET, burl ++ logbooksResource, none, none⟩
  raiseForStatus resp
  let pr ← OpM.ofExcept (jvalPop resp.body "logbook")
  let items ← OpM.ofExcept (pyIter pr.1)
  let lbs ← OpM.ofExcept
    (items.mapM (fun j => (dictToLogbook j).map Prod.fst))
  OpM.pure lbs

/-- `OlogClient.listProperties`: GET the properties resource, check the
status, pop the "property" envelope key and decode each element. -/
def OlogClient.listProperties (burl : String) :
    OpM (List (Option Property)) := do
  let resp ← httpCall ⟨.mGET, burl ++ propertiesResource, none, none⟩
  raiseForStatus resp
  let pr ← OpM.ofExcept (jvalPop resp.body "property")
  let items ← OpM.ofExcept (pyIter pr.1)
  let props ← OpM.ofExcept
    (items.mapM (fun j => (dictToProperty j).map Prod.fst))
  OpM.pure props

/-- `kwds[k]` / `k in kwds` on the keyword-argument dict. -/
def kwGet (kwds : List (String × JVal)) (k : String) : Option JVal :=
  match kwds with
  | [] => none
  | kv :: rest => if kv.1 = k then some kv.2 else kwGet rest k

/-- `OlogClient.__handleSingleDeleteParameter`: dispatch on which of the
four recognized keys is present (logbookName, then tagName, then
propertyName, then logEntryId) and issue the corresponding DELETE; an
unrecognized key raises. The name values reach `.strip()` directly and so
must be strings; the logEntryId goes through `str(...)` first. -/
def handleSingleDeleteParameter (burl : String)
    (kwds : List (String × JVal)) : OpM Unit :=
  match kwGet kwds "logbookName" with
  | some v => do
      let nm ← OpM.ofExcept (match v with
        | .jstr s => .ok (pyStrip s)
        | _ => .error PyErr.attributeError)
      let resp ← httpCall ⟨.mDELETE, burl ++ logbooksResource ++ "/" ++ nm,
        none, none⟩
      raiseForStatus resp
  | none =>
  match kwGet kwds "tagName" with
  | some v => do
      let nm ← OpM.ofExcept (match v with
        | .jstr s => .ok (pyStrip s)
        | _ => .error PyErr.attributeError)
      let resp ← httpCall ⟨.mDELETE, burl ++ tagsResource ++ "/" ++ nm,
        none, none⟩
      raiseForStatus resp
  | none =>
  match kwGet kwds "propertyName" with
  | some v => do
      let nm ← OpM.ofExcept (match v with
        | .jstr s => .ok (pyStrip s)
        | _ => .error PyErr.attributeError)
      let body ← OpM.ofExcept
        (PropertyEncoder.default (Property.make (.jstr nm) (.jdict [])))
      let resp ← httpCall ⟨.mDELETE, burl ++ propertiesResource ++ "/" ++ nm,
        some body, none⟩
      raiseForStatus resp
  | none =>
  match kwGet kwds "logEntryId" with
  | some v => do
      let resp ← httpCall ⟨.mDELETE,
        burl ++ logsResource ++ "/" ++ pyStrip (pyStr v), none, none⟩
      raiseForStatus resp
  | none =>
      OpM.throw (.usageError
        " unkown key, use logEntryId, logbookName, tagName or propertyName")

/-- `OlogClient.delete`: exactly one keyword criterion dispatches to the
single-parameter handler; any other count raises before any HTTP call. -/
def OlogClient.delete (burl : String) (kwds : List (String × JVal)) :
    OpM Unit :=
  if kwds.length = 1 then handleSingleDeleteParameter burl kwds
  else OpM.throw (.usageError "incorrect usage: Delete a single Logbook/tag/property")

theorem dropWhile_self (p : α → Bool) (l : List α) :
    List.dropWhile p (List.dropWhile p l) = List.dropWhile p l := by
  cases h : List.dropWhile p l with
  | nil => simp
  | cons a t =>
      have ha := List.head?_dropWhile_not p l
      rw [h] at ha
      simp only [List.head?_cons] at ha
      simp [List.dropWhile_cons, ha]

theorem pyStripChars_prefix_dropWhile (l : List Char) :
    pyStripChars l <+: List.dropWhile isPySpace l := by
  unfold pyStripChars
  have h : List.dropWhile isPySpace (List.dropWhile isPySpace l).reverse
      <:+ (List.dropWhile isPySpace l).reverse :=
    List.dropWhile_suffix isPySpace
  conv_rhs => rw [← List.reverse_reverse (List.dropWhile isPySpace l)]
  exact List.reverse_prefix.mpr h

theorem pyStripChars_sublist (l : List Char) :
    List.Sublist (pyStripChars l) l :=
  ((pyStripChars_prefix_dropWhile l).sublist).trans (List.dropWhile_sublist _)

theorem dropWhile_pyStripChars (l : List Char) :
    List.dropWhile isPySpace (pyStripChars l) = pyStripChars l := by
  cases h : pyStripChars l with
  | nil => simp
  | cons a t =>
      have hpre := pyStripChars_prefix_dropWhile l
      rw [h] at hpre
      obtain ⟨u, hu⟩ := hpre
      have ha := List.head?_dropWhile_not isPySpace l
      rw [← hu] at ha
      simp only [List.cons_append, List.head?_cons] at ha
      simp [List.dropWhile_cons, ha]

theorem pyStripChars_idem (l : List Char) :
    pyStripChars (pyStripChars l) = pyStripChars l := by
  have h1 := dropWhile_pyStripChars l
  show ((List.dropWhile isPySpace (pyStripChars l)).reverse.dropWhile
    isPySpace).reverse = pyStripChars l
  rw [h1]
  show ((((List.dropWhile isPySpace l).reverse.dropWhile
    isPySpace).reverse.reverse).dropWhile isPySpace).reverse = pyStripChars l
  rw [List.reverse_reverse, dropWhile_self]
  rfl

theorem data_pyStrip (s : String) :
    (pyStrip s).data = pyStripChars s.data := rfl

theorem pyStrip_idem (s : String) : pyStrip (pyStrip s) = pyStrip s := by
  apply String.ext
  rw [data_pyStrip, data_pyStrip, pyStripChars_idem]

theorem mem_pyStripChars {l : List Char} {c : Char}
    (h : c ∈ pyStripChars l) : c ∈ l :=
  (pyStripChars_sublist l).subset h

theorem pyCleanText_printable {s : String} {c : Char}
    (h : c ∈ (pyCleanText s).data) : isPyPrintable c = true := by
  unfold pyCleanText at h
  rw [data_pyStrip] at h
  have := mem_pyStripChars h
  simp only [List.mem_filter] at this
  exact this.2

theorem pyCleanText_stripped (s : String) :
    pyStrip (pyCleanText s) = pyCleanText s := by
  unfold pyCleanText
  exact pyStrip_idem _

theorem pyCleanText_idem (s : String) :
    pyCleanText (pyCleanText s) = pyCleanText s := by
  have hfilter : (pyCleanText s).data.filter isPyPrintable
      = (pyCleanText s).data :=
    List.filter_eq_self.mpr (fun c hc => pyCleanText_printable hc)
  show pyStrip (String.mk ((pyCleanText s).data.filter isPyPrintable))
    = pyCleanText s
  rw [hfilter]
  have hmk : String.mk (pyCleanText s).data = pyCleanText s := by
    apply String.ext; rfl
  rw [hmk]
  exact pyCleanText_stripped s

theorem pyCmpChars_eq_zero :
    ∀ a b : List Char, pyCmpChars a b = 0 ↔ a = b
  | [], [] => by simp [pyCmpChars]
  | [], _ :: _ => by simp [pyCmpChars]
  | _ :: _, [] => by simp [pyCmpChars]
  | a :: as, b :: bs => by
      simp only [pyCmpChars]
      by_cases h1 : a.toNat < b.toNat
      · simp only [if_pos h1]
        constructor
        · intro h; exact absurd h (by decide)
        · intro h
          injection h with hab ht
          rw [hab] at h1
          exact absurd h1 (by omega)
      · by_cases h2 : b.toNat < a.toNat
        · simp only [if_neg h1, if_pos h2]
          constructor
          · intro h; exact absurd h (by decide)
          · intro h
            injection h with hab ht
            rw [hab] at h2
            exact absurd h2 (by omega)
        · have h3 : a.toNat = b.toNat := by omega
          have hab : a = b := Char.eq_of_val_eq (UInt32.toNat.inj h3)
          simp [if_neg h1, if_neg h2, hab, pyCmpChars_eq_zero as bs]

theorem pyCmpStr_eq_zero (a b : String) : pyCmpStr a b = 0 ↔ a = b := by
  unfold pyCmpStr
  rw [pyCmpChars_eq_zero]
  constructor
  · exact String.ext
  · intro h; rw [h]

theorem pyCmpPair_eq_zero (x y : String × String) :
    pyCmpPair x y = 0 ↔ x = y := by
  unfold pyCmpPair
  by_cases h : pyCmpStr x.1 y.1 = 0
  · have h1 : x.1 = y.1 := (pyCmpStr_eq_zero _ _).mp h
    rw [if_pos h, pyCmpStr_eq_zero]
    constructor
    · intro h2; exact Prod.ext h1 h2
    · intro h2; rw [h2]
  · rw [if_neg h]
    constructor
    · intro h2; exact absurd h2 h
    · intro h2
      exact absurd ((pyCmpStr_eq_zero _ _).mpr (by rw [h2])) h

theorem dictPop_ok_facts :
    ∀ (d : List (String × JVal)) (k : String) (v : JVal)
      (d1 : List (String × JVal)),
      dictPop d k = .ok (v, d1) → (d.map Prod.fst).Nodup →
      k ∉ d1.map Prod.fst ∧ (d1.map Prod.fst).Nodup ∧
        List.Sublist (d1.map Prod.fst) (d.map Prod.fst)
  | [], k, v, d1 => by intro h; exact absurd h (by simp [dictPop])
  | kv :: rest, k, v, d1 => by
      intro h hnd
      simp only [List.map_cons, List.nodup_cons] at hnd
      by_cases he : kv.1 = k
      · rw [dictPop, if_pos he] at h
        injection h with h
        injection h with h1 h2
        subst h2
        exact ⟨by rw [← he]; exact hnd.1, hnd.2, List.sublist_cons_self _ _⟩
      · rw [dictPop, if_neg he] at h
        cases hrec : dictPop rest k with
        | error e => rw [hrec] at h; exact absurd h (by simp)
        | ok p =>
            rw [hrec] at h
            injection h with h
            injection h with h1 h2
            subst h2
            obtain ⟨ih1, ih2, ih3⟩ :=
              dictPop_ok_facts rest k p.1 p.2 (by rw [hrec]) hnd.2
            refine ⟨?_, ?_, ?_⟩
            · simp only [List.map_cons, List.mem_cons]
              rintro (hk | hk)
              · exact he hk.symm
              · exact ih1 hk
            · simp only [List.map_cons, List.nodup_cons]
              exact ⟨fun hm => hnd.1 (ih3.subset hm), ih2⟩
            · simpa using ih3.cons₂ kv.1

theorem dictPop_not_mem :
    ∀ (d : List (String × JVal)) (k : String), k ∉ d.map Prod.fst →
      dictPop d k = .error (.keyError k)
  | [], k => by intro _; rfl
  | kv :: rest, k => by
      intro h
      simp only [List.map_cons, List.mem_cons] at h
      push_neg at h
      rw [dictPop, if_neg (fun he => h.1 he.symm),
        dictPop_not_mem rest k h.2]

theorem logbook_make_canonical (nv ov : JVal) :
    Logbook.make (.jstr (Logbook.make nv ov).Name)
      (.jstr (Logbook.make nv ov).Owner) = Logbook.make nv ov := by
  unfold Logbook.make
  simp only [pyStr, pyStrip_idem]

theorem dictToLogbook_pair (n o : String) :
    dictToLogbook (.jdict [("name", .jstr n), ("owner", .jstr o)])
      = .ok (some (Logbook.make (.jstr n) (.jstr o)), .jdict []) := rfl

theorem decode_encode_logbook (lb : Logbook)
    (hcanon : Logbook.make (.jstr lb.Name) (.jstr lb.Owner) = lb) :
    dictToLogbook (LogbookEncoder.default lb)
      = .ok (some lb, .jdict []) := by
  rw [show LogbookEncoder.default lb
    = .jdict [("name", .jstr lb.Name), ("owner", .jstr lb.Owner)] from rfl]
  rw [dictToLogbook_pair, hcanon]

theorem tag_make_canonical (nv sv : JVal) :
    Tag.make (.jstr (Tag.make nv sv).Name)
      (.jstr (Tag.make nv sv).State) = Tag.make nv sv := by
  unfold Tag.make
  simp only [pyStr, pyStrip_idem]

theorem dictToTag_pair (s n : String) :
    dictToTag (.jdict [("state", .jstr s), ("name", .jstr n)])
      = .ok (some (Tag.make (.jstr n) (.jstr s)), .jdict []) := rfl

theorem decode_encode_tag (t : Tag)
    (hcanon : Tag.make (.jstr t.Name) (.jstr t.State) = t) :
    dictToTag (TagEncoder.default t) = .ok (some t, .jdict []) := by
  rw [show TagEncoder.default t
    = .jdict [("state", .jstr t.State), ("name", .jstr t.Name)] from rfl]
  rw [dictToTag_pair, hcanon]

theorem dictGet_of_nodup :
    ∀ (d : List (String × JVal)), (d.map Prod.fst).Nodup →
      ∀ kv ∈ d, dictGet d kv.1 = kv.2
  | [], _, kv, hm => absurd hm (by simp)
  | e :: rest, hnd, kv, hm => by
      simp only [List.map_cons, List.nodup_cons] at hnd
      rcases List.mem_cons.mp hm with h | h
      · subst h
        rw [dictGet, if_pos rfl]
      · rw [dictGet]
        by_cases he : e.1 = kv.1
        · exact absurd (he ▸ (List.mem_map.mpr ⟨kv, h, rfl⟩)) hnd.1
        · rw [if_neg he]
          exact dictGet_of_nodup rest hnd.2 kv h

/-- The wire form a Property takes when its attributes are a dict of
string values with distinct keys. -/
theorem encode_property (nv : JVal) (attrs : List (String × String))
    (hnd : (attrs.map Prod.fst).Nodup) :
    PropertyEncoder.default
      (Property.make nv (.jdict (attrs.map (fun kv => (kv.1, .jstr kv.2)))))
    = .ok (.jdict [("name", .jstr (pyStrip (pyStr nv))),
        ("attributes", .jdict (attrs.map (fun kv => (kv.1, .jstr kv.2))))]) := by
  have hkeys : ((attrs.map (fun kv => (kv.1, JVal.jstr kv.2))).map
      Prod.fst).Nodup := by
    simpa [Function.comp] using hnd
  have hmap : (attrs.map (fun kv => (kv.1, JVal.jstr kv.2))).map
      (fun kv => (kv.1, JVal.jstr (pyStr
        (dictGet (attrs.map (fun kv => (kv.1, JVal.jstr kv.2))) kv.1))))
      = attrs.map (fun kv => (kv.1, JVal.jstr kv.2)) := by
    refine (List.map_congr_left ?_).trans
      (List.map_id (attrs.map (fun kv => (kv.1, JVal.jstr kv.2))))
    intro kv hm
    rw [dictGet_of_nodup _ hkeys kv hm]
    obtain ⟨kv0, hkv0, rfl⟩ := List.mem_map.mp hm
    rfl
  simp only [Property.make, PropertyEncoder.default]
  rw [hmap]

theorem dictToProperty_pair (n : String) (a : JVal) :
    dictToProperty (.jdict [("name", .jstr n), ("attributes", a)])
      = .ok (some (Property.make (.jstr n) a), .jdict []) := rfl

theorem decode_encode_property (nv : JVal) (attrs : List (String × String)) :
    dictToProperty (.jdict [("name", .jstr (pyStrip (pyStr nv))),
        ("attributes", .jdict (attrs.map (fun kv => (kv.1, .jstr kv.2))))])
      = .ok (some (Property.make nv
          (.jdict (attrs.map (fun kv => (kv.1, .jstr kv.2))))), .jdict []) := by
  rw [dictToProperty_pair]
  have hm : Property.make (.jstr (pyStrip (pyStr nv)))
      (.jdict (attrs.map (fun kv => (kv.1, .jstr kv.2))))
    = Property.make nv (.jdict (attrs.map (fun kv => (kv.1, .jstr kv.2)))) := by
    unfold Property.make
    simp only [pyStr, pyStrip_idem]
  rw [hm]

theorem except_bind_ok {α β : Type} (a : α) (f : α → Except PyErr β) :
    Except.bind (.ok a) f = f a := rfl

theorem mapM_map_ok {α β γ : Type} :
    ∀ (l : List α) (h : α → β) (g : β → Except PyErr γ) (f : α → γ),
      (∀ a ∈ l, g (h a) = .ok (f a)) → (l.map h).mapM g = .ok (l.map f)
  | [], _, _, _ => by intro _; rfl
  | a :: l, h, g, f => by
      intro hc
      rw [List.map_cons, List.mapM_cons, hc a (List.mem_cons_self a l),
        mapM_map_ok l h g f (fun x hx => hc x (List.mem_cons_of_mem a hx))]
      rfl

theorem mkLogEntry_explicit (conf : Conf) (t : String) (ov : JVal)
    (lbs : List (Option Logbook)) (tgs : List (Option Tag))
    (aopt : Option (List Attachment)) (props : List (Option Property))
    (idv ctv mtv : JVal) (hov : ov ≠ .jnull) :
    mkLogEntry conf (.jstr t) ov (some lbs) (some tgs) aopt (some props)
      idv ctv mtv
    = .ok ⟨pyCleanText t, ov, lbs, tgs,
        (match aopt with | some l => l | none => []), props,
        idv, ctv, mtv⟩ := by
  cases ov with
  | jnull => exact absurd rfl hov
  | jstr s => cases aopt <;> rfl
  | jnum n => cases aopt <;> rfl
  | jlist l => cases aopt <;> rfl
  | jdict d => cases aopt <;> rfl

/-- What `dictToLogEntry` does on a wire dict of exactly the server's
shape: the pops are concrete, leaving the nested list decodes and the
constructor call as hypotheses. -/
theorem dictToLogEntry_wire (conf : Conf) (T : String)
    (lbs : List (Option Logbook)) (tgs : List (Option Tag))
    (prs : List (Option Property))
    (lbsEnc tgsEnc prsEnc : List JVal) (ov idv ctv mtv : JVal)
    (hlbs : lbsEnc.mapM (fun x => (dictToLogbook x).map Prod.fst) = .ok lbs)
    (htgs : tgsEnc.mapM (fun x => (dictToTag x).map Prod.fst) = .ok tgs)
    (hprs : prsEnc.mapM (fun x => (dictToProperty x).map Prod.fst) = .ok prs)
    (hmk : mkLogEntry conf (.jstr T) ov (some lbs) (some tgs) none (some prs)
        idv ctv mtv = .ok ⟨pyCleanText T, ov, lbs, tgs, [], prs, idv, ctv, mtv⟩) :
    dictToLogEntry conf (.jdict [("description", .jstr T), ("owner", ov),
      ("level", .jstr "Info"), ("logbooks", .jlist lbsEnc),
      ("tags", .jlist tgsEnc), ("properties", .jlist prsEnc),
      ("id", idv), ("createdDate", ctv), ("modifiedDate", mtv)])
    = .ok (some ⟨pyCleanText T, ov, lbs, tgs, [], prs, idv, ctv, mtv⟩,
        .jdict [("level", .jstr "Info")]) := by
  rw [show dictToLogEntry conf (.jdict [("description", .jstr T), ("owner", ov),
      ("level", .jstr "Info"), ("logbooks", .jlist lbsEnc),
      ("tags", .jlist tgsEnc), ("properties", .jlist prsEnc),
      ("id", idv), ("createdDate", ctv), ("modifiedDate", mtv)])
    = Except.bind (lbsEnc.mapM (fun x => (dictToLogbook x).map Prod.fst))
        (fun lbs2 =>
          Except.bind (tgsEnc.mapM (fun x => (dictToTag x).map Prod.fst))
            (fun tgs2 =>
              Except.bind (prsEnc.mapM (fun x => (dictToProperty x).map Prod.fst))
                (fun prs2 =>
                  Except.bind (mkLogEntry conf (.jstr T) ov (some lbs2)
                      (some tgs2) none (some prs2) idv ctv mtv)
                    (fun e => .ok (some e,
                      .jdict [("level", .jstr "Info")]))))) from rfl]
  rw [hlbs, except_bind_ok, htgs, except_bind_ok, hprs, except_bind_ok,
    hmk, except_bind_ok]

/-- What `LogEntryEncoder.default` produces on an entry whose list fields
all come from the entity constructors (no Nones, attribute dicts of
strings with distinct keys). -/
theorem encode_entry (T : String) (ov : JVal)
    (lbArgs tgArgs : List (JVal × JVal))
    (prArgs : List (JVal × List (String × String)))
    (atts : List Attachment) (idv ctv mtv : JVal)
    (hnd : ∀ p ∈ prArgs, (p.2.map Prod.fst).Nodup) :
    LogEntryEncoder.default ⟨T, ov,
        lbArgs.map (fun p => some (Logbook.make p.1 p.2)),
        tgArgs.map (fun p => some (Tag.make p.1 p.2)),
        atts,
        prArgs.map (fun p => some (Property.make p.1
          (.jdict (p.2.map (fun kv => (kv.1, .jstr kv.2)))))),
        idv, ctv, mtv⟩
    = .ok (.jlist [.jdict [("description", .jstr T), ("owner", ov),
        ("level", .jstr "Info"),
        ("logbooks", .jlist (lbArgs.map
          (fun p => LogbookEncoder.default (Logbook.make p.1 p.2)))),
        ("tags", .jlist (tgArgs.map
          (fun p => TagEncoder.default (Tag.make p.1 p.2)))),
        ("properties", .jlist (prArgs.map
          (fun p => .jdict [("name", .jstr (pyStrip (pyStr p.1))),
            ("attributes", .jdict (p.2.map
              (fun kv => (kv.1, .jstr kv.2))))])))]]) := by
  rw [show LogEntryEncoder.default ⟨T, ov,
        lbArgs.map (fun p => some (Logbook.make p.1 p.2)),
        tgArgs.map (fun p => some (Tag.make p.1 p.2)),
        atts,
        prArgs.map (fun p => some (Property.make p.1
          (.jdict (p.2.map (fun kv => (kv.1, .jstr kv.2)))))),
        idv, ctv, mtv⟩
    = Except.bind ((lbArgs.map (fun p => some (Logbook.make p.1 p.2))).mapM
        (fun x => match x with
          | some lb => .ok (LogbookEncoder.default lb)
          | none => .error PyErr.typeError))
        (fun lbs =>
          Except.bind ((tgArgs.map (fun p => some (Tag.make p.1 p.2))).mapM
            (fun x => match x with
              | some tg => .ok (TagEncoder.default tg)
              | none => .error PyErr.typeError))
            (fun tgs =>
              Except.bind ((prArgs.map (fun p => some (Property.make p.1
                  (.jdict (p.2.map (fun kv => (kv.1, .jstr kv.2))))))).mapM
                (fun x => match x with
                  | some pr => PropertyEncoder.default pr
                  | none => .error PyErr.typeError))
                (fun props =>
                  .ok (.jlist [.jdict [("description", .jstr T), ("owner", ov),
                    ("level", .jstr "Info"), ("logbooks", .jlist lbs),
                    ("tags", .jlist tgs),
                    ("properties", .jlist props)]])))) from rfl]
  rw [mapM_map_ok lbArgs (fun p => some (Logbook.make p.1 p.2)) _
    (fun p => LogbookEncoder.default (Logbook.make p.1 p.2))
    (fun a _ => rfl)]
  rw [except_bind_ok]
  rw [mapM_map_ok tgArgs (fun p => some (Tag.make p.1 p.2)) _
    (fun p => TagEncoder.default (Tag.make p.1 p.2))
    (fun a _ => rfl)]
  rw [except_bind_ok]
  rw [mapM_map_ok prArgs (fun p => some (Property.make p.1
      (.jdict (p.2.map (fun kv => (kv.1, .jstr kv.2)))))) _
    (fun p => .jdict [("name", .jstr (pyStrip (pyStr p.1))),
      ("attributes", .jdict (p.2.map (fun kv => (kv.1, .jstr kv.2))))])
    (fun a ha => encode_property a.1 a.2 (hnd a ha))]
  rw [except_bind_ok]

/-- A response status that makes `raise_for_status` raise: 4xx or 5xx. -/
def isErrStatus (n : Nat) : Prop := 400 ≤ n ∧ n < 600

instance (n : Nat) : Decidable (isErrStatus n) := by
  unfold isErrStatus; infer_instance

/-- The upload request `OlogClient.log` issues for one attachment. -/
def mkUploadReq (burl idStr : String) (a : Attachment) : Req :=
  ⟨.mPOST, burl ++ attachmentResource ++ "/" ++ idStr, none, some a.getFilePost⟩

/-- The download request `OlogClient.listAttachments` issues for one
listed attachment. -/
def mkDownloadReq (burl idStr fn : String) : Req :=
  ⟨.mGET, burl ++ attachmentResource ++ "/" ++ idStr ++ "/" ++ fn, none, none⟩

theorem OpM_bind_apply {α β : Type} (m : OpM α) (f : α → OpM β)
    (s : HttpState) :
    OpM.bind m f s = match m s with
      | (s1, Except.ok a) => f a s1
      | (s1, Except.error e) => (s1, Except.error e) := rfl

theorem raiseForStatus_ok {r : Resp} (h : ¬ isErrStatus r.status)
    (s : HttpState) : raiseForStatus r s = (s, .ok ()) := by
  have h2 : ¬ (400 ≤ r.status ∧ r.status < 600) := h
  rw [raiseForStatus, if_neg h2]
  rfl

theorem raiseForStatus_bad {r : Resp} (h : isErrStatus r.status)
    (s : HttpState) :
    raiseForStatus r s = (s, .error (.httpStatusError r.status)) := by
  have h2 : 400 ≤ r.status ∧ r.status < 600 := h
  rw [raiseForStatus, if_pos h2]
  rfl

theorem uploadAttachments_all_ok (burl idStr : String) :
    ∀ (atts : List Attachment) (good extra : List Resp) (issued : List Req),
      good.length = atts.length → (∀ r ∈ good, ¬ isErrStatus r.status) →
      uploadAttachments burl idStr atts ⟨good ++ extra, issued⟩
        = (⟨extra, issued ++ atts.map (mkUploadReq burl idStr)⟩, .ok ())
  | [], good, extra, issued => by
      intro hlen _
      obtain rfl : good = [] := List.length_eq_zero.mp (by simpa using hlen)
      simp [uploadAttachments, OpM.pure]
  | a :: rest, good, extra, issued => by
      intro hlen hgood
      cases good with
      | nil => exact absurd hlen (by simp)
      | cons r grest =>
          have hred : uploadAttachments burl idStr (a :: rest)
              ⟨(r :: grest) ++ extra, issued⟩
            = OpM.bind (raiseForStatus r)
                (fun _ => uploadAttachments burl idStr rest)
                ⟨grest ++ extra, issued ++ [mkUploadReq burl idStr a]⟩ := rfl
          rw [hred, OpM_bind_apply,
            raiseForStatus_ok (hgood r (List.mem_cons_self r _)) _]
          show uploadAttachments burl idStr rest
            ⟨grest ++ extra, issued ++ [mkUploadReq burl idStr a]⟩ = _
          rw [uploadAttachments_all_ok burl idStr rest grest extra
            (issued ++ [mkUploadReq burl idStr a])
            (by simpa using hlen)
            (fun x hx => hgood x (List.mem_cons_of_mem r hx))]
          simp

theorem uploadAttachments_halts (burl idStr : String) :
    ∀ (atts : List Attachment) (good : List Resp) (badr : Resp)
      (rest : List Resp) (issued : List Req),
      good.length < atts.length → (∀ r ∈ good, ¬ isErrStatus r.status) →
      isErrStatus badr.status →
      uploadAttachments burl idStr atts ⟨good ++ badr :: rest, issued⟩
        = (⟨rest, issued ++ (atts.take (good.length + 1)).map
            (mkUploadReq burl idStr)⟩,
           .error (.httpStatusError badr.status))
  | [], good, badr, rest, issued => by
      intro hlen _ _
      exact absurd hlen (by simp)
  | a :: atts, [], badr, rest, issued => by
      intro _ _ hbad
      have hred : uploadAttachments burl idStr (a :: atts)
          ⟨[] ++ badr :: rest, issued⟩
        = OpM.bind (raiseForStatus badr)
            (fun _ => uploadAttachments burl idStr atts)
            ⟨rest, issued ++ [mkUploadReq burl idStr a]⟩ := rfl
      rw [hred, OpM_bind_apply, raiseForStatus_bad hbad _]
      simp
  | a :: atts, r :: good, badr, rest, issued => by
      intro hlen hgood hbad
      have hred : uploadAttachments burl idStr (a :: atts)
          ⟨(r :: good) ++ badr :: rest, issued⟩
        = OpM.bind (raiseForStatus r)
            (fun _ => uploadAttachments burl idStr atts)
            ⟨good ++ badr :: rest, issued ++ [mkUploadReq burl idStr a]⟩ := rfl
      rw [hred, OpM_bind_apply,
        raiseForStatus_ok (hgood r (List.mem_cons_self r _)) _]
      show uploadAttachments burl idStr atts
        ⟨good ++ badr :: rest, issued ++ [mkUploadReq burl idStr a]⟩ = _
      rw [uploadAttachments_halts burl idStr atts good badr rest
        (issued ++ [mkUploadReq burl idStr a])
        (by simpa using Nat.lt_of_succ_lt_succ hlen)
        (fun x hx => hgood x (List.mem_cons_of_mem r hx)) hbad]
      simp [List.take_succ_cons]

theorem fetchAttachments_unchecked (burl idStr : String) :
    ∀ (names : List String) (pending extra : List Resp) (issued : List Req),
      pending.length = names.length →
      fetchAttachments burl idStr
          (names.map (fun n => .jdict [("fileName", .jstr n)]))
          ⟨pending ++ extra, issued⟩
        = (⟨extra, issued ++ names.map (mkDownloadReq burl idStr)⟩,
           .ok (names.map (fun n => ⟨⟨n⟩, none⟩)))
  | [], pending, extra, issued => by
      intro hlen
      obtain rfl : pending = [] := List.length_eq_zero.mp (by simpa using hlen)
      simp [fetchAttachments, OpM.pure]
  | n :: names, pending, extra, issued => by
      intro hlen
      cases pending with
      | nil => exact absurd hlen (by simp)
      | cons r prest =>
          have hred : fetchAttachments burl idStr
              ((n :: names).map (fun m => .jdict [("fileName", .jstr m)]))
              ⟨(r :: prest) ++ extra, issued⟩
            = OpM.bind (fetchAttachments burl idStr
                  (names.map (fun m => .jdict [("fileName", .jstr m)])))
                (fun rest2 => OpM.pure (⟨⟨n⟩, none⟩ :: rest2))
                ⟨prest ++ extra, issued ++ [mkDownloadReq burl idStr n]⟩ := rfl
          rw [hred, OpM_bind_apply,
            fetchAttachments_unchecked burl idStr names prest extra
              (issued ++ [mkDownloadReq burl idStr n]) (by simpa using hlen)]
          simp [OpM.pure]

theorem mkLogEntry_ok_text (conf : Conf) (text ov : JVal)
    (lbs : Option (List (Option Logbook))) (tgs : Option (List (Option Tag)))
    (atts : Option (List Attachment)) (props : Option (List (Option Property)))
    (idv ctv mtv : JVal) (e : LogEntry)
    (h : mkLogEntry conf text ov lbs tgs atts props idv ctv mtv = .ok e) :
    ∃ s, text = .jstr s ∧ e.Text = pyCleanText s := by
  cases text with
  | jstr s =>
      refine ⟨s, rfl, ?_⟩
      simp only [mkLogEntry] at h
      repeat' split at h
      all_goals first
        | (exact Except.noConfusion h)
        | (injection h with h2; rw [← h2])
  | jnum n => exact absurd h (by simp [mkLogEntry])
  | jnull => exact absurd h (by simp [mkLogEntry])
  | jlist l => exact absurd h (by simp [mkLogEntry])
  | jdict d => exact absurd h (by simp [mkLogEntry])

/-- C3 counterexample: a LogEntry constructed with an explicitly empty
logbook collection does NOT fail — the source only falls back to the
configured default when the argument is None, and never checks an
explicit list for emptiness — refuting the claim that an empty collection
raises a ValidationError. -/
theorem C3_empty_logbooks_accepted :
    mkLogEntry Conf.empty (.jstr "test entry") (.jstr "controls")
      (some []) (some []) none (some []) .jnull .jnull .jnull
    = .ok ⟨"test entry", .jstr "controls", [], [], [], [], .jnull, .jnull,
        .jnull⟩ := rfl

/-- C3 (corrected): construction fails with the ValueError "You must
specify a logbook" exactly when the logbooks argument is omitted (None)
and no default logbook list is configured; an explicitly passed
collection — even the empty one — is stored as-is and construction
succeeds. -/
theorem C3_logbook_requirement :
    (∀ (conf : Conf) (t : String) (ov : JVal)
       (tags : Option (List (Option Tag))) (atts : Option (List Attachment))
       (props : Option (List (Option Property))) (idv ctv mtv : JVal),
       Conf.getValue conf.username ov ≠ .jnull → conf.logbooks = .jnull →
       mkLogEntry conf (.jstr t) ov none tags atts props idv ctv mtv
         = .error (.valueError "You must specify a logbook")) ∧
    (∀ (conf : Conf) (t : String) (ov : JVal)
       (tgs : List (Option Tag)) (atts : Option (List Attachment))
       (props : List (Option Property)) (idv ctv mtv : JVal),
       ov ≠ .jnull →
       mkLogEntry conf (.jstr t) ov (some []) (some tgs) atts (some props)
           idv ctv mtv
         = .ok ⟨pyCleanText t, ov, [], tgs,
             (match atts with | some l => l | none => []), props,
             idv, ctv, mtv⟩) := by
  constructor
  · intro conf t ov tags atts props idv ctv mtv hov hconf
    cases how : Conf.getValue conf.username ov with
    | jnull => exact absurd how hov
    | jstr s => simp only [mkLogEntry, hconf, how]
    | jnum n => simp only [mkLogEntry, hconf, how]
    | jlist l => simp only [mkLogEntry, hconf, how]
    | jdict d => simp only [mkLogEntry, hconf, how]
  · intro conf t ov tgs atts props idv ctv mtv hov
    exact mkLogEntry_explicit conf t ov [] tgs atts props idv ctv mtv hov

theorem C3_logbook_requirement_witness :
    mkLogEntry Conf.empty (.jstr "entry") (.jstr "me") none (some [])
        none (some []) .jnull .jnull .jnull
      = .error (.valueError "You must specify a logbook") ∧
    mkLogEntry Conf.empty (.jstr "entry") (.jstr "me") (some []) (some [])
        none (some []) .jnull .jnull .jnull
      = .ok ⟨"entry", .jstr "me", [], [], [], [], .jnull, .jnull, .jnull⟩ :=
  ⟨C3_logbook_requirement.1 Conf.empty "entry" (.jstr "me") (some []) none
      (some []) .jnull .jnull .jnull (by simp [Conf.empty, Conf.getValue]) rfl,
   C3_logbook_requirement.2 Conf.empty "entry" (.jstr "me") [] none
      [] .jnull .jnull .jnull (by simp)⟩

/-- C7 counterexample: constructing a LogEntry from the empty text
succeeds and stores the empty string — the source never checks that the
cleaned text is non-empty — refuting the non-emptiness part of the
claimed invariant. -/
theorem C7_empty_text_accepted :
    mkLogEntry Conf.empty (.jstr "") (.jstr "op") (some []) (some [])
        none (some []) .jnull .jnull .jnull
      = .ok ⟨"", .jstr "op", [], [], [], [], .jnull, .jnull, .jnull⟩ := rfl

/-- C7 (corrected): the text stored by every successful LogEntry
construction contains only characters of Python's string.printable and
carries no leading or trailing whitespace (it can, however, be empty);
the invariant is established at construction, and the class has no
operation that modifies the stored text. -/
theorem C7_text_invariant (conf : Conf) (text ov : JVal)
    (lbs : Option (List (Option Logbook))) (tgs : Option (List (Option Tag)))
    (atts : Option (List Attachment)) (props : Option (List (Option Property)))
    (idv ctv mtv : JVal) (e : LogEntry)
    (h : mkLogEntry conf text ov lbs tgs atts props idv ctv mtv = .ok e) :
    (∀ c ∈ e.Text.data, isPyPrintable c = true) ∧ pyStrip e.Text = e.Text := by
  obtain ⟨s, _, hT⟩ := mkLogEntry_ok_text conf text ov lbs tgs atts props
    idv ctv mtv e h
  rw [hT]
  exact ⟨fun c hc => pyCleanText_printable hc, pyCleanText_stripped s⟩

theorem C7_text_invariant_witness :
    (∀ c ∈ (LogEntry.mk "hi\n there" (.jstr "op") [] [] [] []
        .jnull .jnull .jnull).Text.data, isPyPrintable c = true) ∧
    pyStrip (LogEntry.mk "hi\n there" (.jstr "op") [] [] [] []
        .jnull .jnull .jnull).Text
      = (LogEntry.mk "hi\n there" (.jstr "op") [] [] [] []
        .jnull .jnull .jnull).Text :=
  C7_text_invariant Conf.empty (.jstr "  hi\n there  ") (.jstr "op")
    (some []) (some []) none (some []) .jnull .jnull .jnull
    ⟨"hi\n there", .jstr "op", [], [], [], [], .jnull, .jnull, .jnull⟩ rfl

/-- C8 counterexample: constructing a Logbook without an owner succeeds —
`str(None).strip()` stores the string "None" — refuting the claim that a
missing owner makes construction fail. -/
theorem C8_ownerless_logbook_accepted :
    Logbook.make (.jstr "commissioning") .jnull
      = ⟨"commissioning", "None"⟩ := rfl

/-- C8 (corrected): Logbook construction never fails; the stored name and
owner are the `str()` images of the supplied values trimmed of
surrounding whitespace (string arguments are stored trimmed; an omitted
owner is stringified to "None"). -/
theorem C8_logbook_fields :
    (∀ nv ov : JVal, Logbook.make nv ov
      = ⟨pyStrip (pyStr nv), pyStrip (pyStr ov)⟩) ∧
    (∀ n o : String, Logbook.make (.jstr n) (.jstr o)
      = ⟨pyStrip n, pyStrip o⟩) ∧
    (∀ nv : JVal, Logbook.make nv .jnull
      = ⟨pyStrip (pyStr nv), "None"⟩) :=
  ⟨fun _ _ => rfl, fun _ _ => rfl, fun _ => rfl⟩

/-- C9 (confirmed): `getFilePost` takes the basename of the explicit
filename when given (of the file object's name otherwise), returns the
MIME type guessed from its extension when the table recognizes it, and
falls back to application/octet-stream otherwise; in particular
"photo.jpg" gives image/jpeg and "data.xyz" gives the fallback. -/
theorem C9_mime_inference :
    (∀ (f : PyFile) (fn : String) (m : String),
       mimetypesGuessType (osPathBasename fn) = some m →
       Attachment.getFilePost ⟨f, some fn⟩ = (osPathBasename fn, f, m)) ∧
    (∀ (f : PyFile) (fn : String),
       mimetypesGuessType (osPathBasename fn) = none →
       Attachment.getFilePost ⟨f, some fn⟩
         = (osPathBasename fn, f, "application/octet-stream")) ∧
    (∀ (f : PyFile) (m : String),
       mimetypesGuessType (osPathBasename f.name) = some m →
       Attachment.getFilePost ⟨f, none⟩ = (osPathBasename f.name, f, m)) ∧
    (∀ (f : PyFile) ,
       mimetypesGuessType (osPathBasename f.name) = none →
       Attachment.getFilePost ⟨f, none⟩
         = (osPathBasename f.name, f, "application/octet-stream")) ∧
    (∀ f : PyFile, Attachment.getFilePost ⟨f, some "photo.jpg"⟩
       = ("photo.jpg", f, "image/jpeg")) ∧
    (∀ f : PyFile, Attachment.getFilePost ⟨f, some "data.xyz"⟩
       = ("data.xyz", f, "application/octet-stream")) := by
  refine ⟨?_, ?_, ?_, ?_, fun f => rfl, fun f => rfl⟩
  · intro f fn m hm
    simp only [Attachment.getFilePost, hm]
  · intro f fn hm
    simp only [Attachment.getFilePost, hm]
  · intro f m hm
    simp only [Attachment.getFilePost, hm]
  · intro f hm
    simp only [Attachment.getFilePost, hm]

theorem C9_mime_inference_witness :
    Attachment.getFilePost ⟨⟨"h"⟩, some "/tmp/photo.jpg"⟩
      = ("photo.jpg", ⟨"h"⟩, "image/jpeg") ∧
    Attachment.getFilePost ⟨⟨"d"⟩, some "data.xyz"⟩
      = ("data.xyz", ⟨"d"⟩, "application/octet-stream") ∧
    Attachment.getFilePost ⟨⟨"notes.txt"⟩, none⟩
      = ("notes.txt", ⟨"notes.txt"⟩, "text/plain") :=
  ⟨C9_mime_inference.1 ⟨"h"⟩ "/tmp/photo.jpg" "image/jpeg" rfl,
   C9_mime_inference.2.1 ⟨"d"⟩ "data.xyz" rfl,
   C9_mime_inference.2.2.1 ⟨"notes.txt"⟩ "text/plain" rfl⟩

/-- C6 (code_bug): Logbook and Tag compare equal exactly when their
identity fields — (name, owner) and (name, state) — are equal, and two
Properties with the same name and the same attribute-key set compare
equal whatever the attribute values; but `LogEntry.__cmp__` never
compares by id: with a truthy id it reads `arg[0].__id`, an attribute
that is never assigned (the stored field is `_id`), so the comparison
raises AttributeError — shown here on two entries with ids 1 and 2. -/
theorem C6_identity_comparison :
    (∀ a b : Logbook, Logbook.cmpPy a (some b) = 0 ↔ a = b) ∧
    (∀ a b : Tag, Tag.cmpPy a (some b) = 0 ↔ a = b) ∧
    (∀ (p q : Property) (da db : List (String × JVal)),
       p.Attributes = .jdict da → q.Attributes = .jdict db →
       p.Name = q.Name →
       (da.map Prod.fst).toFinset = (db.map Prod.fst).toFinset →
       Property.cmpPy p (some q) = .ok 0) ∧
    (LogEntry.cmpPy ⟨"a", .jstr "o", [], [], [], [], .jnum 1, .jnull, .jnull⟩
       (some ⟨"b", .jstr "o2", [], [], [], [], .jnum 2, .jnull, .jnull⟩)
     = .error .attributeError) := by
  refine ⟨?_, ?_, ?_, rfl⟩
  · intro a b
    cases a with
    | mk an ao =>
        cases b with
        | mk bn bo =>
            show pyCmpPair (an, ao) (bn, bo) = 0 ↔ _
            rw [pyCmpPair_eq_zero]
            simp [Prod.ext_iff]
  · intro a b
    cases a with
    | mk an as2 =>
        cases b with
        | mk bn bs =>
            show pyCmpPair (an, as2) (bn, bs) = 0 ↔ _
            rw [pyCmpPair_eq_zero]
            simp [Prod.ext_iff]
  · intro p q da db hpa hpb hname hkeys
    rw [show Property.cmpPy p (some q)
      = Except.bind (pySetKeys p.Attributes) (fun s1 =>
          Except.bind (pySetKeys q.Attributes) (fun s2 =>
            if p.Name = q.Name then .ok (pyCmpSets s1 s2)
            else .ok (pyCmpStr p.Name q.Name))) from rfl]
    rw [hpa, hpb]
    rw [show pySetKeys (.jdict da) = .ok (da.map Prod.fst).toFinset from rfl]
    rw [except_bind_ok]
    rw [show pySetKeys (.jdict db) = .ok (db.map Prod.fst).toFinset from rfl]
    rw [except_bind_ok, if_pos hname, pyCmpSets, if_pos hkeys]

theorem C6_identity_comparison_witness :
    (Logbook.cmpPy ⟨"ops", "ctl"⟩ (some ⟨"ops", "ctl"⟩) = 0 ↔
       (⟨"ops", "ctl"⟩ : Logbook) = ⟨"ops", "ctl"⟩) ∧
    (Tag.cmpPy ⟨"t", "Active"⟩ (some ⟨"t", "Active"⟩) = 0 ↔
       (⟨"t", "Active"⟩ : Tag) = ⟨"t", "Active"⟩) ∧
    Property.cmpPy ⟨"Ticket", .jdict [("Id", .jstr "1")]⟩
        (some ⟨"Ticket", .jdict [("Id", .jstr "2")]⟩) = .ok 0 :=
  ⟨C6_identity_comparison.1 ⟨"ops", "ctl"⟩ ⟨"ops", "ctl"⟩,
   C6_identity_comparison.2.1 ⟨"t", "Active"⟩ ⟨"t", "Active"⟩,
   C6_identity_comparison.2.2.1 ⟨"Ticket", .jdict [("Id", .jstr "1")]⟩
     ⟨"Ticket", .jdict [("Id", .jstr "2")]⟩ [("Id", .jstr "1")]
     [("Id", .jstr "2")] rfl rfl rfl rfl⟩

theorem dictToLogbook_pops (d : List (String × JVal)) (kv : String × JVal)
    (rest : List (String × JVal)) (hd : d = kv :: rest) :
    dictToLogbook (.jdict d)
      = Except.bind (dictPop d "name") (fun p1 =>
          Except.bind (dictPop p1.2 "owner") (fun p2 =>
            .ok (some (Logbook.make p1.1 p2.1), .jdict p2.2))) := by
  subst hd; rfl

theorem dictToTag_pops (d : List (String × JVal)) (kv : String × JVal)
    (rest : List (String × JVal)) (hd : d = kv :: rest) :
    dictToTag (.jdict d)
      = Except.bind (dictPop d "name") (fun p1 =>
          Except.bind (dictPop p1.2 "state") (fun p2 =>
            .ok (some (Tag.make p1.1 p2.1), .jdict p2.2))) := by
  subst hd; rfl

theorem dictToProperty_pops (d : List (String × JVal)) (kv : String × JVal)
    (rest : List (String × JVal)) (hd : d = kv :: rest) :
    dictToProperty (.jdict d)
      = Except.bind (dictPop d "name") (fun p1 =>
          Except.bind (dictPop p1.2 "attributes") (fun p2 =>
            .ok (some (Property.make p1.1 p2.1), .jdict p2.2))) := by
  subst hd; rfl

theorem dictToLogEntry_pops (conf : Conf) (d : List (String × JVal))
    (kv : String × JVal) (rest : List (String × JVal)) (hd : d = kv :: rest) :
    dictToLogEntry conf (.jdict d)
      = Except.bind (dictPop d "description") (fun p1 =>
        Except.bind (dictPop p1.2 "owner") (fun p2 =>
        Except.bind (dictPop p2.2 "logbooks") (fun p3 =>
        Except.bind (pyIter p3.1) (fun lbsI =>
        Except.bind (lbsI.mapM (fun x => (dictToLogbook x).map Prod.fst))
          (fun lbs =>
        Except.bind (dictPop p3.2 "tags") (fun p4 =>
        Except.bind (pyIter p4.1) (fun tgsI =>
        Except.bind (tgsI.mapM (fun x => (dictToTag x).map Prod.fst))
          (fun tgs =>
        Except.bind (dictPop p4.2 "properties") (fun p5 =>
        Except.bind (pyIter p5.1) (fun prsI =>
        Except.bind (prsI.mapM (fun x => (dictToProperty x).map Prod.fst))
          (fun prs =>
        Except.bind (dictPop p5.2 "id") (fun p6 =>
        Except.bind (dictPop p6.2 "createdDate") (fun p7 =>
        Except.bind (dictPop p7.2 "modifiedDate") (fun p8 =>
        Except.bind (mkLogEntry conf p1.1 p2.1 (some lbs) (some tgs) none
            (some prs) p6.1 p7.1 p8.1) (fun e =>
          Except.ok (some e, .jdict p8.2)))))))))))))))) := by
  subst hd; rfl

theorem dictToLogbook_no_entity (d : List (String × JVal))
    (hname : "name" ∉ d.map Prod.fst) (y : Logbook) (r : JVal) :
    dictToLogbook (.jdict d) ≠ .ok (some y, r) := by
  cases d with
  | nil =>
      intro h
      rw [show dictToLogbook (.jdict []) = .ok (none, .jdict []) from rfl] at h
      injection h with h2
      exact Option.noConfusion (congrArg Prod.fst h2)
  | cons kv rest =>
      intro h
      rw [dictToLogbook_pops (kv :: rest) kv rest rfl,
        dictPop_not_mem (kv :: rest) "name" hname] at h
      exact Except.noConfusion h

theorem dictToTag_no_entity (d : List (String × JVal))
    (hname : "name" ∉ d.map Prod.fst) (y : Tag) (r : JVal) :
    dictToTag (.jdict d) ≠ .ok (some y, r) := by
  cases d with
  | nil =>
      intro h
      rw [show dictToTag (.jdict []) = .ok (none, .jdict []) from rfl] at h
      injection h with h2
      exact Option.noConfusion (congrArg Prod.fst h2)
  | cons kv rest =>
      intro h
      rw [dictToTag_pops (kv :: rest) kv rest rfl,
        dictPop_not_mem (kv :: rest) "name" hname] at h
      exact Except.noConfusion h

theorem dictToProperty_no_entity (d : List (String × JVal))
    (hname : "name" ∉ d.map Prod.fst) (y : Property) (r : JVal) :
    dictToProperty (.jdict d) ≠ .ok (some y, r) := by
  cases d with
  | nil =>
      intro h
      rw [show dictToProperty (.jdict []) = .ok (none, .jdict []) from rfl] at h
      injection h with h2
      exact Option.noConfusion (congrArg Prod.fst h2)
  | cons kv rest =>
      intro h
      rw [dictToProperty_pops (kv :: rest) kv rest rfl,
        dictPop_not_mem (kv :: rest) "name" hname] at h
      exact Except.noConfusion h

theorem dictToLogEntry_no_entity (conf : Conf) (d : List (String × JVal))
    (hdesc : "description" ∉ d.map Prod.fst) (y : LogEntry) (r : JVal) :
    dictToLogEntry conf (.jdict d) ≠ .ok (some y, r) := by
  cases d with
  | nil =>
      intro h
      rw [show dictToLogEntry conf (.jdict [])
        = .ok (none, .jdict []) from rfl] at h
      injection h with h2
      exact Option.noConfusion (congrArg Prod.fst h2)
  | cons kv rest =>
      intro h
      rw [dictToLogEntry_pops conf (kv :: rest) kv rest rfl,
        dictPop_not_mem (kv :: rest) "description" hdesc] at h
      exact Except.noConfusion h

/-- C10 (confirmed): each decoder pops its fields out of the caller's
mapping — after a successful decode of a dict with distinct keys, the
consumed keys are gone from the resulting mapping and a second decode of
that mapping can no longer produce an entity (it yields None on the empty
dict or raises KeyError on the first pop). -/
theorem C10_decoders_mutate :
    (∀ (d : List (String × JVal)) (x : Logbook) (v' : JVal),
       (d.map Prod.fst).Nodup → dictToLogbook (.jdict d) = .ok (some x, v') →
       ∃ d', v' = .jdict d' ∧ "name" ∉ d'.map Prod.fst ∧
         "owner" ∉ d'.map Prod.fst ∧
         ∀ (y : Logbook) (r : JVal),
           dictToLogbook (.jdict d') ≠ .ok (some y, r)) ∧
    (∀ (d : List (String × JVal)) (x : Tag) (v' : JVal),
       (d.map Prod.fst).Nodup → dictToTag (.jdict d) = .ok (some x, v') →
       ∃ d', v' = .jdict d' ∧ "name" ∉ d'.map Prod.fst ∧
         "state" ∉ d'.map Prod.fst ∧
         ∀ (y : Tag) (r : JVal), dictToTag (.jdict d') ≠ .ok (some y, r)) ∧
    (∀ (d : List (String × JVal)) (x : Property) (v' : JVal),
       (d.map Prod.fst).Nodup → dictToProperty (.jdict d) = .ok (some x, v') →
       ∃ d', v' = .jdict d' ∧ "name" ∉ d'.map Prod.fst ∧
         "attributes" ∉ d'.map Prod.fst ∧
         ∀ (y : Property) (r : JVal),
           dictToProperty (.jdict d') ≠ .ok (some y, r)) ∧
    (∀ (conf : Conf) (d : List (String × JVal)) (x : LogEntry) (v' : JVal),
       (d.map Prod.fst).Nodup →
       dictToLogEntry conf (.jdict d) = .ok (some x, v') →
       ∃ d', v' = .jdict d' ∧
         "description" ∉ d'.map Prod.fst ∧ "owner" ∉ d'.map Prod.fst ∧
         "logbooks" ∉ d'.map Prod.fst ∧ "tags" ∉ d'.map Prod.fst ∧
         "properties" ∉ d'.map Prod.fst ∧ "id" ∉ d'.map Prod.fst ∧
         "createdDate" ∉ d'.map Prod.fst ∧ "modifiedDate" ∉ d'.map Prod.fst ∧
         ∀ (y : LogEntry) (r : JVal),
           dictToLogEntry conf (.jdict d') ≠ .ok (some y, r)) := by
  refine ⟨?_, ?_, ?_, ?_⟩
  · intro d x v' hnd h
    cases d with
    | nil =>
        rw [show dictToLogbook (.jdict []) = .ok (none, .jdict []) from rfl]
          at h
        injection h with h2
        exact absurd (congrArg Prod.fst h2) (by simp)
    | cons kv rest =>
        rw [dictToLogbook_pops (kv :: rest) kv rest rfl] at h
        cases hp1 : dictPop (kv :: rest) "name" with
        | error e => rw [hp1] at h; exact Except.noConfusion h
        | ok p1 =>
            rw [hp1, except_bind_ok] at h
            cases hp2 : dictPop p1.2 "owner" with
            | error e => rw [hp2] at h; exact Except.noConfusion h
            | ok p2 =>
                rw [hp2, except_bind_ok] at h
                injection h with h2
                obtain ⟨f1a, f1b, _⟩ :=
                  dictPop_ok_facts (kv :: rest) "name" p1.1 p1.2
                    (by rw [hp1]) hnd
                obtain ⟨f2a, _, f2c⟩ :=
                  dictPop_ok_facts p1.2 "owner" p2.1 p2.2 (by rw [hp2]) f1b
                have hname : "name" ∉ p2.2.map Prod.fst :=
                  fun hm => f1a (f2c.subset hm)
                exact ⟨p2.2, (congrArg Prod.snd h2).symm, hname, f2a,
                  dictToLogbook_no_entity p2.2 hname⟩
  · intro d x v' hnd h
    cases d with
    | nil =>
        rw [show dictToTag (.jdict []) = .ok (none, .jdict []) from rfl] at h
        injection h with h2
        exact absurd (congrArg Prod.fst h2) (by simp)
    | cons kv rest =>
        rw [dictToTag_pops (kv :: rest) kv rest rfl] at h
        cases hp1 : dictPop (kv :: rest) "name" with
        | error e => rw [hp1] at h; exact Except.noConfusion h
        | ok p1 =>
            rw [hp1, except_bind_ok] at h
            cases hp2 : dictPop p1.2 "state" with
            | error e => rw [hp2] at h; exact Except.noConfusion h
            | ok p2 =>
                rw [hp2, except_bind_ok] at h
                injection h with h2
                obtain ⟨f1a, f1b, _⟩ :=
                  dictPop_ok_facts (kv :: rest) "name" p1.1 p1.2
                    (by rw [hp1]) hnd
                obtain ⟨f2a, _, f2c⟩ :=
                  dictPop_ok_facts p1.2 "state" p2.1 p2.2 (by rw [hp2]) f1b
                have hname : "name" ∉ p2.2.map Prod.fst :=
                  fun hm => f1a (f2c.subset hm)
                exact ⟨p2.2, (congrArg Prod.snd h2).symm, hname, f2a,
                  dictToTag_no_entity p2.2 hname⟩
  · intro d x v' hnd h
    cases d with
    | nil =>
        rw [show dictToProperty (.jdict []) = .ok (none, .jdict []) from rfl]
          at h
        injection h with h2
        exact absurd (congrArg Prod.fst h2) (by simp)
    | cons kv rest =>
        rw [dictToProperty_pops (kv :: rest) kv rest rfl] at h
        cases hp1 : dictPop (kv :: rest) "name" with
        | error e => rw [hp1] at h; exact Except.noConfusion h
        | ok p1 =>
            rw [hp1, except_bind_ok] at h
            cases hp2 : dictPop p1.2 "attributes" with
            | error e => rw [hp2] at h; exact Except.noConfusion h
            | ok p2 =>
                rw [hp2, except_bind_ok] at h
                injection h with h2
                obtain ⟨f1a, f1b, _⟩ :=
                  dictPop_ok_facts (kv :: rest) "name" p1.1 p1.2
                    (by rw [hp1]) hnd
                obtain ⟨f2a, _, f2c⟩ :=
                  dictPop_ok_facts p1.2 "attributes" p2.1 p2.2
                    (by rw [hp2]) f1b
                have hname : "name" ∉ p2.2.map Prod.fst :=
                  fun hm => f1a (f2c.subset hm)
                exact ⟨p2.2, (congrArg Prod.snd h2).symm, hname, f2a,
                  dictToProperty_no_entity p2.2 hname⟩
  · intro conf d x v' hnd h
    cases d with
    | nil =>
        rw [show dictToLogEntry conf (.jdict [])
          = .ok (none, .jdict []) from rfl] at h
        injection h with h2
        exact absurd (congrArg Prod.fst h2) (by simp)
    | cons kv rest =>
        rw [dictToLogEntry_pops conf (kv :: rest) kv rest rfl] at h
        cases hp1 : dictPop (kv :: rest) "description" with
        | error e => rw [hp1] at h; exact Except.noConfusion h
        | ok p1 =>
        rw [hp1, except_bind_ok] at h
        cases hp2 : dictPop p1.2 "owner" with
        | error e => rw [hp2] at h; exact Except.noConfusion h
        | ok p2 =>
        rw [hp2, except_bind_ok] at h
        cases hp3 : dictPop p2.2 "logbooks" with
        | error e => rw [hp3] at h; exact Except.noConfusion h
        | ok p3 =>
        rw [hp3, except_bind_ok] at h
        cases hi1 : pyIter p3.1 with
        | error e => rw [hi1] at h; exact Except.noConfusion h
        | ok lbsI =>
        rw [hi1, except_bind_ok] at h
        cases hm1 : lbsI.mapM (fun x => (dictToLogbook x).map Prod.fst) with
        | error e => rw [hm1] at h; exact Except.noConfusion h
        | ok lbs =>
        rw [hm1, except_bind_ok] at h
        cases hp4 : dictPop p3.2 "tags" with
        | error e => rw [hp4] at h; exact Except.noConfusion h
        | ok p4 =>
        rw [hp4, except_bind_ok] at h
        cases hi2 : pyIter p4.1 with
        | error e => rw [hi2] at h; exact Except.noConfusion h
        | ok tgsI =>
        rw [hi2, except_bind_ok] at h
        cases hm2 : tgsI.mapM (fun x => (dictToTag x).map Prod.fst) with
        | error e => rw [hm2] at h; exact Except.noConfusion h
        | ok tgs =>
        rw [hm2, except_bind_ok] at h
        cases hp5 : dictPop p4.2 "properties" with
        | error e => rw [hp5] at h; exact Except.noConfusion h
        | ok p5 =>
        rw [hp5, except_bind_ok] at h
        cases hi3 : pyIter p5.1 with
        | error e => rw [hi3] at h; exact Except.noConfusion h
        | ok prsI =>
        rw [hi3, except_bind_ok] at h
        cases hm3 : prsI.mapM (fun x => (dictToProperty x).map Prod.fst) with
        | error e => rw [hm3] at h; exact Except.noConfusion h
        | ok prs =>
        rw [hm3, except_bind_ok] at h
        cases hp6 : dictPop p5.2 "id" with
        | error e => rw [hp6] at h; exact Except.noConfusion h
        | ok p6 =>
        rw [hp6, except_bind_ok] at h
        cases hp7 : dictPop p6.2 "createdDate" with
        | error e => rw [hp7] at h; exact Except.noConfusion h
        | ok p7 =>
        rw [hp7, except_bind_ok] at h
        cases hp8 : dictPop p7.2 "modifiedDate" with
        | error e => rw [hp8] at h; exact Except.noConfusion h
        | ok p8 =>
        rw [hp8, except_bind_ok] at h
        cases hmk : mkLogEntry conf p1.1 p2.1 (some lbs) (some tgs) none
            (some prs) p6.1 p7.1 p8.1 with
        | error e => rw [hmk] at h; exact Except.noConfusion h
        | ok e2 =>
        rw [hmk, except_bind_ok] at h
        injection h with h2
        obtain ⟨g1a, g1b, _⟩ := dictPop_ok_facts (kv :: rest) "description"
          p1.1 p1.2 (by rw [hp1]) hnd
        obtain ⟨g2a, g2b, g2c⟩ := dictPop_ok_facts p1.2 "owner"
          p2.1 p2.2 (by rw [hp2]) g1b
        obtain ⟨g3a, g3b, g3c⟩ := dictPop_ok_facts p2.2 "logbooks"
          p3.1 p3.2 (by rw [hp3]) g2b
        obtain ⟨g4a, g4b, g4c⟩ := dictPop_ok_facts p3.2 "tags"
          p4.1 p4.2 (by rw [hp4]) g3b
        obtain ⟨g5a, g5b, g5c⟩ := dictPop_ok_facts p4.2 "properties"
          p5.1 p5.2 (by rw [hp5]) g4b
        obtain ⟨g6a, g6b, g6c⟩ := dictPop_ok_facts p5.2 "id"
          p6.1 p6.2 (by rw [hp6]) g5b
        obtain ⟨g7a, g7b, g7c⟩ := dictPop_ok_facts p6.2 "createdDate"
          p7.1 p7.2 (by rw [hp7]) g6b
        obtain ⟨g8a, _, g8c⟩ := dictPop_ok_facts p7.2 "modifiedDate"
          p8.1 p8.2 (by rw [hp8]) g7b
        have sub78 := g8c
        have sub68 := sub78.trans g7c
        have sub58 := sub68.trans g6c
        have sub48 := sub58.trans g5c
        have sub38 := sub48.trans g4c
        have sub28 := sub38.trans g3c
        have sub18 := sub28.trans g2c
        have hdesc : "description" ∉ p8.2.map Prod.fst :=
          fun hm => g1a (sub18.subset hm)
        refine ⟨p8.2, (congrArg Prod.snd h2).symm, hdesc,
          fun hm => g2a (sub28.subset hm),
          fun hm => g3a (sub38.subset hm),
          fun hm => g4a (sub48.subset hm),
          fun hm => g5a (sub58.subset hm),
          fun hm => g6a (sub68.subset hm),
          fun hm => g7a (sub78.subset hm),
          g8a,
          dictToLogEntry_no_entity conf p8.2 hdesc⟩

theorem C10_decoders_mutate_witness :
    (∃ d', (JVal.jdict [("extra", JVal.jnum 1)]) = .jdict d' ∧
       "name" ∉ d'.map Prod.fst ∧ "owner" ∉ d'.map Prod.fst ∧
       ∀ (y : Logbook) (r : JVal),
         dictToLogbook (.jdict d') ≠ .ok (some y, r)) ∧
    (∃ d', (JVal.jdict [("level", JVal.jstr "Info")]) = .jdict d' ∧
       "description" ∉ d'.map Prod.fst ∧ "owner" ∉ d'.map Prod.fst ∧
       "logbooks" ∉ d'.map Prod.fst ∧ "tags" ∉ d'.map Prod.fst ∧
       "properties" ∉ d'.map Prod.fst ∧ "id" ∉ d'.map Prod.fst ∧
       "createdDate" ∉ d'.map Prod.fst ∧ "modifiedDate" ∉ d'.map Prod.fst ∧
       ∀ (y : LogEntry) (r : JVal),
         dictToLogEntry Conf.empty (.jdict d') ≠ .ok (some y, r)) :=
  ⟨C10_decoders_mutate.1
      [("name", .jstr "ops"), ("owner", .jstr "ctl"), ("extra", .jnum 1)]
      ⟨"ops", "ctl"⟩ (.jdict [("extra", .jnum 1)]) (by decide) rfl,
   C10_decoders_mutate.2.2.2 Conf.empty
      [("description", .jstr "hi"), ("owner", .jstr "op"),
       ("level", .jstr "Info"), ("logbooks", .jlist []), ("tags", .jlist []),
       ("properties", .jlist []), ("id", .jnum 3), ("createdDate", .jnull),
       ("modifiedDate", .jnull)]
      ⟨"hi", .jstr "op", [], [], [], [], .jnum 3, .jnull, .jnull⟩
      (.jdict [("level", .jstr "Info")]) (by decide) rfl⟩

theorem runOp_eq {α : Type} (m : OpM α) (resps : List Resp) (s1 : HttpState)
    (res : Except PyErr α) (h : m ⟨resps, []⟩ = (s1, res)) :
    runOp m resps = (s1.issued, res) := by
  rw [runOp, h]

theorem runOp_eq2 {α : Type} (m : OpM α) (resps pending2 : List Resp)
    (issued : List Req) (res : Except PyErr α)
    (h : m ⟨resps, []⟩ = (⟨pending2, issued⟩, res)) :
    runOp m resps = (issued, res) := by
  rw [runOp, h]

/-- C5 (confirmed): `delete` with zero keyword criteria, or with two or
more, raises the usage error before any HTTP request; a delete request is
only ever issued when the arguments are exactly one keyword drawn from
logbookName, tagName, propertyName, logEntryId. -/
theorem C5_delete_criteria :
    (∀ (burl : String) (resps : List Resp),
       runOp (OlogClient.delete burl []) resps
         = ([], .error (.usageError
             "incorrect usage: Delete a single Logbook/tag/property"))) ∧
    (∀ (burl k1 k2 : String) (v1 v2 : JVal)
       (kwds : List (String × JVal)) (resps : List Resp),
       runOp (OlogClient.delete burl ((k1, v1) :: (k2, v2) :: kwds)) resps
         = ([], .error (.usageError
             "incorrect usage: Delete a single Logbook/tag/property"))) ∧
    (∀ (burl : String) (kwds : List (String × JVal)) (resps : List Resp),
       (runOp (OlogClient.delete burl kwds) resps).1 ≠ [] →
       ∃ k v, kwds = [(k, v)] ∧
         (k = "logbookName" ∨ k = "tagName" ∨ k = "propertyName" ∨
          k = "logEntryId")) := by
  refine ⟨fun burl resps => rfl, ?_, ?_⟩
  · intro burl k1 k2 v1 v2 kwds resps
    have hlen : ¬ ((k1, v1) :: (k2, v2) :: kwds).length = 1 := by simp
    rw [runOp, OlogClient.delete, if_neg hlen]
    rfl
  · intro burl kwds resps hne
    match kwds with
    | [] => exact absurd rfl hne
    | (a, v1) :: (b, v2) :: t =>
        exfalso
        apply hne
        have hlen : ¬ ((a, v1) :: (b, v2) :: t).length = 1 := by simp
        rw [runOp, OlogClient.delete, if_neg hlen]
        rfl
    | [(k, v)] =>
        refine ⟨k, v, rfl, ?_⟩
        by_cases h1 : k = "logbookName"
        · exact Or.inl h1
        by_cases h2 : k = "tagName"
        · exact Or.inr (Or.inl h2)
        by_cases h3 : k = "propertyName"
        · exact Or.inr (Or.inr (Or.inl h3))
        by_cases h4 : k = "logEntryId"
        · exact Or.inr (Or.inr (Or.inr h4))
        exfalso
        apply hne
        have l1 : kwGet [(k, v)] "logbookName" = none := by
          simp [kwGet, h1]
        have l2 : kwGet [(k, v)] "tagName" = none := by
          simp [kwGet, h2]
        have l3 : kwGet [(k, v)] "propertyName" = none := by
          simp [kwGet, h3]
        have l4 : kwGet [(k, v)] "logEntryId" = none := by
          simp [kwGet, h4]
        have hrun : OlogClient.delete burl [(k, v)] ⟨resps, []⟩
            = (⟨resps, []⟩, .error (.usageError
              " unkown key, use logEntryId, logbookName, tagName or propertyName")) := by
          rw [OlogClient.delete, if_pos (by rfl), handleSingleDeleteParameter,
            l1, l2, l3, l4]
          rfl
        rw [runOp_eq (OlogClient.delete burl [(k, v)]) resps _ _ hrun]

theorem C5_delete_criteria_witness :
    (runOp (OlogClient.delete "" []) []
      = ([], .error (.usageError
          "incorrect usage: Delete a single Logbook/tag/property"))) ∧
    (runOp (OlogClient.delete ""
        [("logbookName", .jstr "a"), ("tagName", .jstr "b")]) []
      = ([], .error (.usageError
          "incorrect usage: Delete a single Logbook/tag/property"))) ∧
    (∃ k v, ([("tagName", JVal.jstr "t")] : List (String × JVal)) = [(k, v)] ∧
       (k = "logbookName" ∨ k = "tagName" ∨ k = "propertyName" ∨
        k = "logEntryId")) :=
  ⟨C5_delete_criteria.1 "" [],
   C5_delete_criteria.2.1 "" "logbookName" "tagName" (.jstr "a") (.jstr "b")
     [] [],
   C5_delete_criteria.2.2 "" [("tagName", .jstr "t")] [⟨200, .jnull⟩]
     (by
       intro h
       rw [show (runOp (OlogClient.delete "" [("tagName", .jstr "t")])
           [⟨200, .jnull⟩]).1
         = [⟨.mDELETE, "" ++ tagsResource ++ "/" ++ "t", none, none⟩]
         from rfl] at h
       exact List.noConfusion h)⟩

/-- C1 counterexample: decoding the encoder's own output fails. The
encoder emits only description/owner/level/logbooks/tags/properties,
while the decoder unconditionally pops "id" — absent — so the literal
composition decode(encode(entry)) raises KeyError("id") even for a valid
constructed entry. -/
theorem C1_decode_encode_fails :
    mkLogEntry Conf.empty (.jstr "test entry") (.jstr "controls")
        (some [some (Logbook.make (.jstr "ops") (.jstr "controls"))])
        (some []) none (some []) .jnull .jnull .jnull
      = .ok ⟨"test entry", .jstr "controls", [some ⟨"ops", "controls"⟩],
          [], [], [], .jnull, .jnull, .jnull⟩ ∧
    LogEntryEncoder.default ⟨"test entry", .jstr "controls",
        [some ⟨"ops", "controls"⟩], [], [], [], .jnull, .jnull, .jnull⟩
      = .ok (.jlist [.jdict [("description", .jstr "test entry"),
          ("owner", .jstr "controls"), ("level", .jstr "Info"),
          ("logbooks", .jlist [.jdict [("name", .jstr "ops"),
            ("owner", .jstr "controls")]]),
          ("tags", .jlist []), ("properties", .jlist [])]]) ∧
    dictToLogEntry Conf.empty (.jdict [("description", .jstr "test entry"),
        ("owner", .jstr "controls"), ("level", .jstr "Info"),
        ("logbooks", .jlist [.jdict [("name", .jstr "ops"),
          ("owner", .jstr "controls")]]),
        ("tags", .jlist []), ("properties", .jlist [])])
      = .error (.keyError "id") := ⟨rfl, rfl, rfl⟩

set_option maxHeartbeats 1600000 in
/-- C1 (corrected): decode after encode preserves the client-supplied
fields once the wire mapping is completed with the server-assigned
id/createdDate/modifiedDate keys the decoder pops: for every LogEntry
built from constructor-made logbooks, tags and properties (attribute
dicts of strings with distinct keys), the encoded single-element envelope
decodes — after that augmentation — to an entry with the same text,
owner, logbooks, tags and properties, in order, and with the
server-assigned fields installed. -/
theorem C1_roundtrip (conf : Conf) (t : String) (ov : JVal)
    (lbArgs tgArgs : List (JVal × JVal))
    (prArgs : List (JVal × List (String × String)))
    (atts : List Attachment) (idv ctv mtv : JVal) (e : LogEntry)
    (hov : ov ≠ .jnull)
    (hnd : ∀ p ∈ prArgs, (p.2.map Prod.fst).Nodup)
    (he : mkLogEntry conf (.jstr t) ov
        (some (lbArgs.map (fun p => some (Logbook.make p.1 p.2))))
        (some (tgArgs.map (fun p => some (Tag.make p.1 p.2))))
        (some atts)
        (some (prArgs.map (fun p => some (Property.make p.1
          (.jdict (p.2.map (fun kv => (kv.1, .jstr kv.2))))))))
        .jnull .jnull .jnull = .ok e) :
    ∃ wire e2,
      LogEntryEncoder.default e = .ok (.jlist [.jdict wire]) ∧
      dictToLogEntry conf (.jdict (wire ++
          [("id", idv), ("createdDate", ctv), ("modifiedDate", mtv)]))
        = .ok (some e2, .jdict [("level", .jstr "Info")]) ∧
      e2.Text = e.Text ∧ e2.Owner = e.Owner ∧ e2.logbooks = e.logbooks ∧
      e2.tags = e.tags ∧ e2.properties = e.properties ∧
      e2.eid = idv ∧ e2.createTime = ctv ∧ e2.modifyTime = mtv := by
  rw [mkLogEntry_explicit conf t ov _ _ (some atts) _ .jnull .jnull .jnull
    hov] at he
  injection he with he2
  subst he2
  refine ⟨[("description", .jstr (pyCleanText t)), ("owner", ov),
      ("level", .jstr "Info"),
      ("logbooks", .jlist (lbArgs.map
        (fun p => LogbookEncoder.default (Logbook.make p.1 p.2)))),
      ("tags", .jlist (tgArgs.map
        (fun p => TagEncoder.default (Tag.make p.1 p.2)))),
      ("properties", .jlist (prArgs.map
        (fun p => .jdict [("name", .jstr (pyStrip (pyStr p.1))),
          ("attributes", .jdict (p.2.map
            (fun kv => (kv.1, .jstr kv.2))))])))],
    ⟨pyCleanText (pyCleanText t), ov,
      lbArgs.map (fun p => some (Logbook.make p.1 p.2)),
      tgArgs.map (fun p => some (Tag.make p.1 p.2)), [],
      prArgs.map (fun p => some (Property.make p.1
        (.jdict (p.2.map (fun kv => (kv.1, .jstr kv.2)))))),
      idv, ctv, mtv⟩,
    encode_entry (pyCleanText t) ov lbArgs tgArgs prArgs atts
      .jnull .jnull .jnull hnd,
    ?_, pyCleanText_idem t, rfl, rfl, rfl, rfl, rfl, rfl, rfl⟩
  exact dictToLogEntry_wire conf (pyCleanText t)
    (lbArgs.map (fun p => some (Logbook.make p.1 p.2)))
    (tgArgs.map (fun p => some (Tag.make p.1 p.2)))
    (prArgs.map (fun p => some (Property.make p.1
      (.jdict (p.2.map (fun kv => (kv.1, .jstr kv.2)))))))
    (lbArgs.map (fun p => LogbookEncoder.default (Logbook.make p.1 p.2)))
    (tgArgs.map (fun p => TagEncoder.default (Tag.make p.1 p.2)))
    (prArgs.map (fun p => .jdict [("name", .jstr (pyStrip (pyStr p.1))),
      ("attributes", .jdict (p.2.map (fun kv => (kv.1, .jstr kv.2))))]))
    ov idv ctv mtv
    (mapM_map_ok lbArgs
      (fun p => LogbookEncoder.default (Logbook.make p.1 p.2)) _
      (fun p => some (Logbook.make p.1 p.2))
      (fun a _ => by
        rw [decode_encode_logbook (Logbook.make a.1 a.2)
          (logbook_make_canonical a.1 a.2)]
        rfl))
    (mapM_map_ok tgArgs
      (fun p => TagEncoder.default (Tag.make p.1 p.2)) _
      (fun p => some (Tag.make p.1 p.2))
      (fun a _ => by
        rw [decode_encode_tag (Tag.make a.1 a.2)
          (tag_make_canonical a.1 a.2)]
        rfl))
    (mapM_map_ok prArgs
      (fun p => JVal.jdict [("name", JVal.jstr (pyStrip (pyStr p.1))),
        ("attributes", JVal.jdict (p.2.map
          (fun kv => (kv.1, JVal.jstr kv.2))))]) _
      (fun p => some (Property.make p.1
        (.jdict (p.2.map (fun kv => (kv.1, .jstr kv.2))))))
      (fun a _ => by
        rw [decode_encode_property a.1 a.2]
        rfl))
    (mkLogEntry_explicit conf (pyCleanText t) ov _ _ none _ idv ctv mtv hov)

theorem C1_roundtrip_witness :
    ∃ wire e2,
      LogEntryEncoder.default ⟨"hello", .jstr "op", [some ⟨"ops", "ctl"⟩],
          [some ⟨"tg", "Active"⟩], [],
          [some ⟨"P", .jdict [("k", .jstr "v")]⟩],
          .jnull, .jnull, .jnull⟩
        = .ok (.jlist [.jdict wire]) ∧
      dictToLogEntry Conf.empty (.jdict (wire ++
          [("id", .jnum 9), ("createdDate", .jstr "c"),
           ("modifiedDate", .jstr "m")]))
        = .ok (some e2, .jdict [("level", .jstr "Info")]) ∧
      e2.Text = (LogEntry.mk "hello" (.jstr "op") [some ⟨"ops", "ctl"⟩]
          [some ⟨"tg", "Active"⟩] [] [some ⟨"P", .jdict [("k", .jstr "v")]⟩]
          .jnull .jnull .jnull).Text ∧
      e2.Owner = (LogEntry.mk "hello" (.jstr "op") [some ⟨"ops", "ctl"⟩]
          [some ⟨"tg", "Active"⟩] [] [some ⟨"P", .jdict [("k", .jstr "v")]⟩]
          .jnull .jnull .jnull).Owner ∧
      e2.logbooks = (LogEntry.mk "hello" (.jstr "op") [some ⟨"ops", "ctl"⟩]
          [some ⟨"tg", "Active"⟩] [] [some ⟨"P", .jdict [("k", .jstr "v")]⟩]
          .jnull .jnull .jnull).logbooks ∧
      e2.tags = (LogEntry.mk "hello" (.jstr "op") [some ⟨"ops", "ctl"⟩]
          [some ⟨"tg", "Active"⟩] [] [some ⟨"P", .jdict [("k", .jstr "v")]⟩]
          .jnull .jnull .jnull).tags ∧
      e2.properties = (LogEntry.mk "hello" (.jstr "op") [some ⟨"ops", "ctl"⟩]
          [some ⟨"tg", "Active"⟩] [] [some ⟨"P", .jdict [("k", .jstr "v")]⟩]
          .jnull .jnull .jnull).properties ∧
      e2.eid = JVal.jnum 9 ∧ e2.createTime = JVal.jstr "c" ∧
      e2.modifyTime = JVal.jstr "m" :=
  C1_roundtrip Conf.empty " hello " (.jstr "op")
    [(.jstr "ops", .jstr "ctl")] [(.jstr "tg", .jstr "Active")]
    [(.jstr "P", [("k", "v")])] [] (.jnum 9) (.jstr "c") (.jstr "m")
    ⟨"hello", .jstr "op", [some ⟨"ops", "ctl"⟩], [some ⟨"tg", "Active"⟩], [],
      [some ⟨"P", .jdict [("k", .jstr "v")]⟩], .jnull, .jnull, .jnull⟩
    (fun h => JVal.noConfusion h)
    (by
      intro p hp
      rw [List.mem_singleton] at hp
      subst hp
      decide)
    rfl

theorem bind_raise_bad {α : Type} (r : Resp) (k : Unit → OpM α)
    (s : HttpState) (h : isErrStatus r.status) :
    OpM.bind (raiseForStatus r) k s
      = (s, .error (.httpStatusError r.status)) := by
  rw [OpM_bind_apply, raiseForStatus_bad h]

/-- `OlogClient.log` after a successful create round: the state just
before the attachment loop, with the create call recorded and the id
taken from the decoded response. -/
theorem log_after_create (conf : Conf) (burl : String) (entry : LogEntry)
    (bodyV : JVal) (r0 : Resp) (pending : List Resp) (firstD : JVal)
    (e0 : LogEntry) (rest0 : JVal)
    (henc : LogEntryEncoder.default entry = .ok bodyV)
    (hr0 : ¬ isErrStatus r0.status)
    (hidx : jIndexZero r0.body = .ok firstD)
    (hdec : dictToLogEntry conf firstD = .ok (some e0, rest0)) :
    OlogClient.log conf burl entry ⟨r0 :: pending, []⟩
      = uploadAttachments burl (pyStr e0.eid) entry.attachments
          ⟨pending, [⟨.mPOST, burl ++ logsResource, some bodyV, none⟩]⟩ := by
  simp only [OlogClient.log, henc, hidx, hdec, OpM.ofExcept, OpM.pure,
    bind, OpM.bind, httpCall, raiseForStatus_ok hr0, List.nil_append]

/-- C4 (confirmed): a `log(entry)` call against uniformly successful
responses, where the create response decodes to an entry carrying the
server-assigned id, issues exactly 1 + N requests: the create POST
followed by one upload POST per attachment, in the attachment list's
order, each addressed to the attachment sub-resource keyed by the decoded
id. -/
theorem C4_log_call_sequence (conf : Conf) (burl : String)
    (entry : LogEntry) (bodyV : JVal) (r0 : Resp) (good : List Resp)
    (firstD : JVal) (e0 : LogEntry) (rest0 : JVal)
    (henc : LogEntryEncoder.default entry = .ok bodyV)
    (hr0 : 200 ≤ r0.status ∧ r0.status < 300)
    (hgood : ∀ r ∈ good, 200 ≤ r.status ∧ r.status < 300)
    (hlen : good.length = entry.attachments.length)
    (hidx : jIndexZero r0.body = .ok firstD)
    (hdec : dictToLogEntry conf firstD = .ok (some e0, rest0)) :
    runOp (OlogClient.log conf burl entry) (r0 :: good)
      = (⟨.mPOST, burl ++ logsResource, some bodyV, none⟩ ::
          entry.attachments.map (mkUploadReq burl (pyStr e0.eid)), .ok ()) := by
  have hr0e : ¬ isErrStatus r0.status := by
    unfold isErrStatus; omega
  have h1 : OlogClient.log conf burl entry ⟨r0 :: good, []⟩
      = uploadAttachments burl (pyStr e0.eid) entry.attachments
          ⟨good, [⟨.mPOST, burl ++ logsResource, some bodyV, none⟩]⟩ :=
    log_after_create conf burl entry bodyV r0 good firstD e0 rest0
      henc hr0e hidx hdec
  have h2 : uploadAttachments burl (pyStr e0.eid) entry.attachments
      ⟨good ++ [], [⟨.mPOST, burl ++ logsResource, some bodyV, none⟩]⟩
      = (⟨[], [⟨.mPOST, burl ++ logsResource, some bodyV, none⟩] ++
          entry.attachments.map (mkUploadReq burl (pyStr e0.eid))⟩, .ok ()) :=
    uploadAttachments_all_ok burl (pyStr e0.eid) entry.attachments good []
      [⟨.mPOST, burl ++ logsResource, some bodyV, none⟩] hlen
      (fun r hr => by
        have := hgood r hr
        unfold isErrStatus
        omega)
  rw [List.append_nil] at h2
  rw [runOp_eq (OlogClient.log conf burl entry) (r0 :: good) _ _
    (h1.trans h2)]
  rfl

theorem C4_log_call_sequence_witness :
    runOp (OlogClient.log Conf.empty ""
        ⟨"hi", .jstr "op", [some ⟨"lb", "o"⟩], [],
          [⟨⟨"a.txt"⟩, none⟩, ⟨⟨"b.jpg"⟩, none⟩], [],
          .jnull, .jnull, .jnull⟩)
      [⟨200, .jlist [.jdict [("description", .jstr "hi"),
          ("owner", .jstr "op"), ("logbooks", .jlist []),
          ("tags", .jlist []), ("properties", .jlist []),
          ("id", .jnum 7), ("createdDate", .jnull),
          ("modifiedDate", .jnull)]]⟩,
       ⟨204, .jnull⟩, ⟨201, .jnull⟩]
    = (⟨.mPOST, "" ++ logsResource,
        some (.jlist [.jdict [("description", .jstr "hi"),
          ("owner", .jstr "op"), ("level", .jstr "Info"),
          ("logbooks", .jlist [.jdict [("name", .jstr "lb"),
            ("owner", .jstr "o")]]),
          ("tags", .jlist []), ("properties", .jlist [])]]), none⟩ ::
        (LogEntry.mk "hi" (.jstr "op") [some ⟨"lb", "o"⟩] []
          [⟨⟨"a.txt"⟩, none⟩, ⟨⟨"b.jpg"⟩, none⟩] []
          .jnull .jnull .jnull).attachments.map
          (mkUploadReq "" (pyStr (LogEntry.mk "hi" (.jstr "op") [] [] [] []
            (.jnum 7) .jnull .jnull).eid)), .ok ()) :=
  C4_log_call_sequence Conf.empty ""
    ⟨"hi", .jstr "op", [some ⟨"lb", "o"⟩], [],
      [⟨⟨"a.txt"⟩, none⟩, ⟨⟨"b.jpg"⟩, none⟩], [], .jnull, .jnull, .jnull⟩
    (.jlist [.jdict [("description", .jstr "hi"), ("owner", .jstr "op"),
      ("level", .jstr "Info"),
      ("logbooks", .jlist [.jdict [("name", .jstr "lb"),
        ("owner", .jstr "o")]]),
      ("tags", .jlist []), ("properties", .jlist [])]])
    ⟨200, .jlist [.jdict [("description", .jstr "hi"),
      ("owner", .jstr "op"), ("logbooks", .jlist []), ("tags", .jlist []),
      ("properties", .jlist []), ("id", .jnum 7), ("createdDate", .jnull),
      ("modifiedDate", .jnull)]]⟩
    [⟨204, .jnull⟩, ⟨201, .jnull⟩]
    (.jdict [("description", .jstr "hi"), ("owner", .jstr "op"),
      ("logbooks", .jlist []), ("tags", .jlist []), ("properties", .jlist []),
      ("id", .jnum 7), ("createdDate", .jnull), ("modifiedDate", .jnull)])
    ⟨"hi", .jstr "op", [], [], [], [], .jnum 7, .jnull, .jnull⟩
    (.jdict [])
    rfl (by decide)
    (by
      intro r hr
      cases hr with
      | head => decide
      | tail _ hr2 =>
          cases hr2 with
          | head => decide
          | tail _ hr3 => cases hr3)
    rfl rfl rfl

/-- C2 counterexample: two operations that receive a non-2xx response and
do NOT raise. (1) In listAttachments the per-attachment content download
is never passed to raise_for_status: with the download answered by a 500
the operation still issues both calls and returns normally. (2)
raise_for_status only raises for 4xx/5xx, so a non-2xx status such as 304
lets listTags proceed and return normally. -/
theorem C2_non2xx_not_always_raised :
    runOp (OlogClient.listAttachments "" (.jnum 5))
        [⟨200, .jdict [("attachment",
            .jlist [.jdict [("fileName", .jstr "a.txt")]])]⟩,
         ⟨500, .jnull⟩]
      = ([⟨.mGET, "" ++ attachmentResource ++ "/" ++ "5", none, none⟩,
          ⟨.mGET, "" ++ attachmentResource ++ "/" ++ "5" ++ "/" ++ "a.txt",
            none, none⟩],
         .ok [⟨⟨"a.txt"⟩, none⟩]) ∧
    runOp (OlogClient.listTags "") [⟨304, .jdict [("tag", .jlist [])]⟩]
      = ([⟨.mGET, "" ++ tagsResource, none, none⟩], .ok []) := ⟨rfl, rfl⟩

/-- C2 (corrected): every response the client passes to raise_for_status
— which is every response received except the per-attachment content
downloads inside listAttachments — halts the operation with the HTTP
error when its status is 4xx/5xx, with no further HTTP call issued: shown
for createLogbook, createTag, createProperty, find, listTags,
listLogbooks, listProperties, listAttachments, all four delete forms, the
create call of log, and a failure anywhere in log's upload sequence. The
download responses of listAttachments are never status-checked: whatever
their statuses, the operation issues all its calls and returns. -/
theorem C2_error_status_halts :
    (∀ (burl : String) (lb : Logbook) (r : Resp) (rest : List Resp),
       isErrStatus r.status →
       runOp (OlogClient.createLogbook burl lb) (r :: rest)
         = ([⟨.mPUT, burl ++ logbooksResource ++ "/" ++ lb.Name,
             some (LogbookEncoder.default lb), none⟩],
            .error (.httpStatusError r.status))) ∧
    (∀ (burl : String) (t : Tag) (r : Resp) (rest : List Resp),
       isErrStatus r.status →
       runOp (OlogClient.createTag burl t) (r :: rest)
         = ([⟨.mPUT, burl ++ tagsResource ++ "/" ++ t.Name,
             some (TagEncoder.default t), none⟩],
            .error (.httpStatusError r.status))) ∧
    (∀ (burl : String) (p : Property) (bodyV : JVal) (r : Resp)
       (rest : List Resp),
       PropertyEncoder.default p = .ok bodyV → isErrStatus r.status →
       runOp (OlogClient.createProperty burl p) (r :: rest)
         = ([⟨.mPUT, burl ++ propertiesResource ++ "/" ++ p.Name,
             some bodyV, none⟩],
            .error (.httpStatusError r.status))) ∧
    (∀ (conf : Conf) (burl : String) (kwds : List (String × String))
       (r : Resp) (rest : List Resp),
       isErrStatus r.status →
       runOp (OlogClient.find conf burl kwds) (r :: rest)
         = ([⟨.mGET, burl ++ logsResource ++ "?" ++ urlencodePairs kwds,
             none, none⟩],
            .error (.httpStatusError r.status))) ∧
    (∀ (burl : String) (r : Resp) (rest : List Resp),
       isErrStatus r.status →
       runOp (OlogClient.listTags burl) (r :: rest)
         = ([⟨.mGET, burl ++ tagsResource, none, none⟩],
            .error (.httpStatusError r.status))) ∧
    (∀ (burl : String) (r : Resp) (rest : List Resp),
       isErrStatus r.status →
       runOp (OlogClient.listLogbooks burl) (r :: rest)
         = ([⟨.mGET, burl ++ logbooksResource, none, none⟩],
            .error (.httpStatusError r.status))) ∧
    (∀ (burl : String) (r : Resp) (rest : List Resp),
       isErrStatus r.status →
       runOp (OlogClient.listProperties burl) (r :: rest)
         = ([⟨.mGET, burl ++ propertiesResource, none, none⟩],
            .error (.httpStatusError r.status))) ∧
    (∀ (burl : String) (idv : JVal) (r : Resp) (rest : List Resp),
       isErrStatus r.status →
       runOp (OlogClient.listAttachments burl idv) (r :: rest)
         = ([⟨.mGET, burl ++ attachmentResource ++ "/" ++ pyStr idv,
             none, none⟩],
            .error (.httpStatusError r.status))) ∧
    (∀ (burl s : String) (r : Resp) (rest : List Resp),
       isErrStatus r.status →
       runOp (OlogClient.delete burl [("logbookName", .jstr s)]) (r :: rest)
         = ([⟨.mDELETE, burl ++ logbooksResource ++ "/" ++ pyStrip s,
             none, none⟩],
            .error (.httpStatusError r.status))) ∧
    (∀ (burl s : String) (r : Resp) (rest : List Resp),
       isErrStatus r.status →
       runOp (OlogClient.delete burl [("tagName", .jstr s)]) (r :: rest)
         = ([⟨.mDELETE, burl ++ tagsResource ++ "/" ++ pyStrip s,
             none, none⟩],
            .error (.httpStatusError r.status))) ∧
    (∀ (burl s : String) (r : Resp) (rest : List Resp),
       isErrStatus r.status →
       runOp (OlogClient.delete burl [("propertyName", .jstr s)]) (r :: rest)
         = ([⟨.mDELETE, burl ++ propertiesResource ++ "/" ++ pyStrip s,
             some (.jdict [("name", .jstr (pyStrip (pyStrip s))),
               ("attributes", .jdict [])]), none⟩],
            .error (.httpStatusError r.status))) ∧
    (∀ (burl : String) (v : JVal) (r : Resp) (rest : List Resp),
       isErrStatus r.status →
       runOp (OlogClient.delete burl [("logEntryId", v)]) (r :: rest)
         = ([⟨.mDELETE, burl ++ logsResource ++ "/" ++ pyStrip (pyStr v),
             none, none⟩],
            .error (.httpStatusError r.status))) ∧
    (∀ (conf : Conf) (burl : String) (entry : LogEntry) (bodyV : JVal)
       (r : Resp) (rest : List Resp),
       LogEntryEncoder.default entry = .ok bodyV → isErrStatus r.status →
       runOp (OlogClient.log conf burl entry) (r :: rest)
         = ([⟨.mPOST, burl ++ logsResource, some bodyV, none⟩],
            .error (.httpStatusError r.status))) ∧
    (∀ (conf : Conf) (burl : String) (entry : LogEntry) (bodyV : JVal)
       (r0 : Resp) (good : List Resp) (badr : Resp) (rest : List Resp)
       (firstD : JVal) (e0 : LogEntry) (rest0 : JVal),
       LogEntryEncoder.default entry = .ok bodyV →
       ¬ isErrStatus r0.status →
       jIndexZero r0.body = .ok firstD →
       dictToLogEntry conf firstD = .ok (some e0, rest0) →
       good.length < entry.attachments.length →
       (∀ r ∈ good, ¬ isErrStatus r.status) →
       isErrStatus badr.status →
       runOp (OlogClient.log conf burl entry)
           (r0 :: (good ++ badr :: rest))
         = (⟨.mPOST, burl ++ logsResource, some bodyV, none⟩ ::
             (entry.attachments.take (good.length + 1)).map
               (mkUploadReq burl (pyStr e0.eid)),
            .error (.httpStatusError badr.status))) ∧
    (∀ (burl : String) (idv : JVal) (st0 : Nat) (names : List String)
       (dls : List Resp),
       ¬ isErrStatus st0 → dls.length = names.length →
       runOp (OlogClient.listAttachments burl idv)
           (⟨st0, .jdict [("attachment", .jlist (names.map
             (fun n => .jdict [("fileName", .jstr n)])))]⟩ :: dls)
         = (⟨.mGET, burl ++ attachmentResource ++ "/" ++ pyStr idv,
             none, none⟩ :: names.map (mkDownloadReq burl (pyStr idv)),
            .ok (names.map (fun n => ⟨⟨n⟩, none⟩)))) := by
  refine ⟨?_, ?_, ?_, ?_, ?_, ?_, ?_, ?_, ?_, ?_, ?_, ?_, ?_, ?_, ?_⟩
  · intro burl lb r rest h
    exact runOp_eq _ _ _ _
      ((show OlogClient.createLogbook burl lb ⟨r :: rest, []⟩
        = raiseForStatus r ⟨rest, [⟨.mPUT,
            burl ++ logbooksResource ++ "/" ++ lb.Name,
            some (LogbookEncoder.default lb), none⟩]⟩ from rfl).trans
        (raiseForStatus_bad h _))
  · intro burl t r rest h
    exact runOp_eq _ _ _ _
      ((show OlogClient.createTag burl t ⟨r :: rest, []⟩
        = raiseForStatus r ⟨rest, [⟨.mPUT,
            burl ++ tagsResource ++ "/" ++ t.Name,
            some (TagEncoder.default t), none⟩]⟩ from rfl).trans
        (raiseForStatus_bad h _))
  · intro burl p bodyV r rest henc h
    refine runOp_eq2 _ _ rest _ _ ?_
    simp only [OlogClient.createProperty, henc, OpM.ofExcept, OpM.pure,
      bind, OpM.bind, httpCall, List.nil_append, raiseForStatus_bad h]
  · intro conf burl kwds r rest h
    refine runOp_eq2 _ _ rest _ _ ?_
    simp only [OlogClient.find, bind, OpM.bind, httpCall,
      List.nil_append, raiseForStatus_bad h]
  · intro burl r rest h
    refine runOp_eq2 _ _ rest _ _ ?_
    simp only [OlogClient.listTags, bind, OpM.bind, httpCall,
      List.nil_append, raiseForStatus_bad h]
  · intro burl r rest h
    refine runOp_eq2 _ _ rest _ _ ?_
    simp only [OlogClient.listLogbooks, bind, OpM.bind, httpCall,
      List.nil_append, raiseForStatus_bad h]
  · intro burl r rest h
    refine runOp_eq2 _ _ rest _ _ ?_
    simp only [OlogClient.listProperties, bind, OpM.bind, httpCall,
      List.nil_append, raiseForStatus_bad h]
  · intro burl idv r rest h
    refine runOp_eq2 _ _ rest _ _ ?_
    simp only [OlogClient.listAttachments, bind, OpM.bind, httpCall,
      List.nil_append, raiseForStatus_bad h]
  · intro burl s r rest h
    exact runOp_eq _ _ _ _
      ((show OlogClient.delete burl [("logbookName", .jstr s)]
          ⟨r :: rest, []⟩
        = raiseForStatus r ⟨rest, [⟨.mDELETE,
            burl ++ logbooksResource ++ "/" ++ pyStrip s, none, none⟩]⟩
        from rfl).trans (raiseForStatus_bad h _))
  · intro burl s r rest h
    exact runOp_eq _ _ _ _
      ((show OlogClient.delete burl [("tagName", .jstr s)]
          ⟨r :: rest, []⟩
        = raiseForStatus r ⟨rest, [⟨.mDELETE,
            burl ++ tagsResource ++ "/" ++ pyStrip s, none, none⟩]⟩
        from rfl).trans (raiseForStatus_bad h _))
  · intro burl s r rest h
    exact runOp_eq _ _ _ _
      ((show OlogClient.delete burl [("propertyName", .jstr s)]
          ⟨r :: rest, []⟩
        = raiseForStatus r ⟨rest, [⟨.mDELETE,
            burl ++ propertiesResource ++ "/" ++ pyStrip s,
            some (.jdict [("name", .jstr (pyStrip (pyStrip s))),
              ("attributes", .jdict [])]), none⟩]⟩
        from rfl).trans (raiseForStatus_bad h _))
  · intro burl v r rest h
    exact runOp_eq _ _ _ _
      ((show OlogClient.delete burl [("logEntryId", v)]
          ⟨r :: rest, []⟩
        = raiseForStatus r ⟨rest, [⟨.mDELETE,
            burl ++ logsResource ++ "/" ++ pyStrip (pyStr v),
            none, none⟩]⟩
        from rfl).trans (raiseForStatus_bad h _))
  · intro conf burl entry bodyV r rest henc h
    refine runOp_eq2 _ _ rest _ _ ?_
    simp only [OlogClient.log, henc, OpM.ofExcept, OpM.pure,
      bind, OpM.bind, httpCall, List.nil_append, raiseForStatus_bad h]
  · intro conf burl entry bodyV r0 good badr rest firstD e0 rest0
      henc hr0 hidx hdec hlen hgood hbad
    have h1 := log_after_create conf burl entry bodyV r0
      (good ++ badr :: rest) firstD e0 rest0 henc hr0 hidx hdec
    have h2 := uploadAttachments_halts burl (pyStr e0.eid)
      entry.attachments good badr rest
      [⟨.mPOST, burl ++ logsResource, some bodyV, none⟩] hlen hgood hbad
    rw [runOp_eq _ _ _ _ (h1.trans h2)]
    rfl
  · intro burl idv st0 names dls h hlen
    have h2 : fetchAttachments burl (pyStr idv)
        (names.map (fun n => .jdict [("fileName", .jstr n)]))
        ⟨dls, [⟨.mGET, burl ++ attachmentResource ++ "/" ++ pyStr idv,
          none, none⟩]⟩
        = (⟨[], [⟨.mGET, burl ++ attachmentResource ++ "/" ++ pyStr idv,
            none, none⟩] ++ names.map (mkDownloadReq burl (pyStr idv))⟩,
           .ok (names.map (fun n => ⟨⟨n⟩, none⟩))) := by
      have h3 := fetchAttachments_unchecked burl (pyStr idv) names dls []
        [⟨.mGET, burl ++ attachmentResource ++ "/" ++ pyStr idv,
          none, none⟩] hlen
      rwa [List.append_nil] at h3
    have h1 : OlogClient.listAttachments burl idv
        (⟨⟨st0, .jdict [("attachment", .jlist (names.map
            (fun n => .jdict [("fileName", .jstr n)])))]⟩ :: dls, []⟩)
        = (⟨[], [⟨.mGET, burl ++ attachmentResource ++ "/" ++ pyStr idv,
            none, none⟩] ++ names.map (mkDownloadReq burl (pyStr idv))⟩,
           .ok (names.map (fun n => ⟨⟨n⟩, none⟩))) := by
      have h1a : OlogClient.listAttachments burl idv
          (⟨⟨st0, .jdict [("attachment", .jlist (names.map
              (fun n => .jdict [("fileName", .jstr n)])))]⟩ :: dls, []⟩)
          = OpM.bind (raiseForStatus ⟨st0, .jdict [("attachment",
              .jlist (names.map (fun n => .jdict [("fileName",
                .jstr n)])))]⟩)
              (fun _ => OpM.bind (OpM.ofExcept (jvalPop
                  (JVal.jdict [("attachment", .jlist (names.map
                    (fun n => .jdict [("fileName", .jstr n)])))])
                  "attachment"))
                (fun pr => OpM.bind (OpM.ofExcept (pyIter pr.1))
                  (fun items => fetchAttachments burl (pyStr idv) items)))
              ⟨dls, [⟨.mGET,
                burl ++ attachmentResource ++ "/" ++ pyStr idv,
                none, none⟩]⟩ := rfl
      rw [h1a, OpM_bind_apply, raiseForStatus_ok h]
      exact h2
    rw [runOp_eq _ _ _ _ h1]
    rfl

theorem C2_error_status_halts_witness :
    runOp (OlogClient.createLogbook "" ⟨"b", "o"⟩) [⟨404, .jnull⟩]
      = ([⟨.mPUT, "" ++ logbooksResource ++ "/" ++ "b",
          some (LogbookEncoder.default ⟨"b", "o"⟩), none⟩],
         .error (.httpStatusError 404)) ∧
    runOp (OlogClient.log Conf.empty ""
        ⟨"hi", .jstr "op", [], [], [⟨⟨"a.txt"⟩, none⟩, ⟨⟨"b.jpg"⟩, none⟩],
          [], .jnull, .jnull, .jnull⟩)
      [⟨200, .jlist [.jdict [("description", .jstr "hi"),
          ("owner", .jstr "op"), ("logbooks", .jlist []),
          ("tags", .jlist []), ("properties", .jlist []),
          ("id", .jnum 7), ("createdDate", .jnull),
          ("modifiedDate", .jnull)]]⟩,
       ⟨200, .jnull⟩, ⟨500, .jnull⟩]
      = (⟨.mPOST, "" ++ logsResource,
          some (.jlist [.jdict [("description", .jstr "hi"),
            ("owner", .jstr "op"), ("level", .jstr "Info"),
            ("logbooks", .jlist []), ("tags", .jlist []),
            ("properties", .jlist [])]]), none⟩ ::
          ((LogEntry.mk "hi" (.jstr "op") [] []
            [⟨⟨"a.txt"⟩, none⟩, ⟨⟨"b.jpg"⟩, none⟩] []
            .jnull .jnull .jnull).attachments.take 2).map
            (mkUploadReq "" (pyStr (LogEntry.mk "hi" (.jstr "op") [] [] [] []
              (.jnum 7) .jnull .jnull).eid)),
         .error (.httpStatusError 500)) ∧
    runOp (OlogClient.listAttachments "" (.jnum 5))
        [⟨200, .jdict [("attachment", .jlist (["a.txt"].map
          (fun n => .jdict [("fileName", .jstr n)])))]⟩, ⟨500, .jnull⟩]
      = (⟨.mGET, "" ++ attachmentResource ++ "/" ++ pyStr (JVal.jnum 5),
          none, none⟩ :: ["a.txt"].map (mkDownloadReq "" (pyStr (JVal.jnum 5))),
         .ok (["a.txt"].map (fun n => (⟨⟨n⟩, none⟩ : Attachment)))) :=
  ⟨C2_error_status_halts.1 "" ⟨"b", "o"⟩ ⟨404, .jnull⟩ [] (by decide),
   C2_error_status_halts.2.2.2.2.2.2.2.2.2.2.2.2.2.1 Conf.empty ""
     ⟨"hi", .jstr "op", [], [], [⟨⟨"a.txt"⟩, none⟩, ⟨⟨"b.jpg"⟩, none⟩],
       [], .jnull, .jnull, .jnull⟩
     (.jlist [.jdict [("description", .jstr "hi"), ("owner", .jstr "op"),
       ("level", .jstr "Info"), ("logbooks", .jlist []),
       ("tags", .jlist []), ("properties", .jlist [])]])
     ⟨200, .jlist [.jdict [("description", .jstr "hi"),
       ("owner", .jstr "op"), ("logbooks", .jlist []), ("tags", .jlist []),
       ("properties", .jlist []), ("id", .jnum 7), ("createdDate", .jnull),
       ("modifiedDate", .jnull)]]⟩
     [⟨200, .jnull⟩] ⟨500, .jnull⟩ []
     (.jdict [("description", .jstr "hi"), ("owner", .jstr "op"),
       ("logbooks", .jlist []), ("tags", .jlist []),
       ("properties", .jlist []), ("id", .jnum 7), ("createdDate", .jnull),
       ("modifiedDate", .jnull)])
     ⟨"hi", .jstr "op", [], [], [], [], .jnum 7, .jnull, .jnull⟩
     (.jdict []) rfl (by decide) rfl rfl (by decide)
     (by
       intro r hr
       cases hr with
       | head => decide
       | tail _ hr2 => cases hr2)
     (by decide),
   C2_error_status_halts.2.2.2.2.2.2.2.2.2.2.2.2.2.2 "" (.jnum 5) 200
     ["a.txt"] [⟨500, .jnull⟩] (by decide) rfl⟩
